import Mathlib

/-!
# Verification development for the Tictactoe-Game repository

Namespace `MainScreen2` embeds the side-scrolling obstacle game of
`src/screen/MainScreen2.js`: the React state atoms (`running`, `score`, `gameOver`,
`highScore`, `entities`), the two game-engine systems (`physics`, `pipeSpawning`) and
the commands (`jump`, `startGame`, `resetGame`, `gameOverHandler`). Namespace
`MainScreen` embeds the turn-based grid game of `src/screen/mainscreen.js`:
`initBoard`, `handleCellPress` and `checkWinner`. The definitions of both come first,
then the lemmas and the claims.

Modelling conventions.
* JavaScript numbers are exact rationals (`ℚ`); the score counters are naturals.
  Where the rounding of doubles decides a statement, `toDouble` rounds an exact result
  to the double the code stores, and `spawnPairRounded` is the spawner's arithmetic
  with every result rounded.
* `State` has one `entities` object; `Mounted` keeps the `entities` atom and the
  entities held by the `GameEngine` apart, for statements that compose a command with
  a tick.
* `Dimensions.get(window)` is the parameter `Dims`.
* A React setter call does not change the value seen by the running closure: a
  system reads the state of the last render (`c` below) and queues `Update`s,
  which `commit` applies in call order once the frame is over.
* `Math.random()` is made explicit: a `spawn-pipe` event carries the draw that
  the spawner makes while handling it.
* Renderers, sound and orientation locking carry no game state and are left out.
-/

set_option linter.unusedVariables false

namespace MainScreen2

/-! ## The program: constants, entities, React state, commands and systems -/

/-- Window size, `const { width: WIDTH, height: HEIGHT } = Dimensions.get(window)`. -/
structure Dims where
  WIDTH : ℚ
  HEIGHT : ℚ

def BIRD_WIDTH : ℚ := 40
def BIRD_HEIGHT : ℚ := 30
def PIPE_WIDTH : ℚ := 70
def GAP_SIZE : ℚ := 150
def GRAVITY : ℚ := 1 / 2
def JUMP_FORCE : ℚ := -10
def PIPE_SPEED : ℚ := 3
def PIPE_SPAWN_RATE : ℚ := 1500

/-- The bird entity: `position`, `size`, `velocity`. -/
structure Bird where
  x : ℚ
  y : ℚ
  width : ℚ
  height : ℚ
  velocity : ℚ
deriving DecidableEq

/-- A pipe entity: `position`, `size` and the `scored` flag (absent, hence falsy,
on a freshly pushed pipe). -/
structure Pipe where
  x : ℚ
  y : ℚ
  width : ℚ
  height : ℚ
  scored : Bool
deriving DecidableEq

/-- The `entities` object: `bird`, `pipes` and `score.value`. -/
structure Entities where
  bird : Bird
  pipes : List Pipe
  scoreValue : Nat
deriving DecidableEq

/-- The component state: the four `useState` atoms and one `entities` object. The
systems read `entities` as the object the `GameEngine` hands them; the commands
`startGame` and `jump` read it as the `entities` atom they write. Where a statement
composes a command with a tick the two are different objects, and `Mounted` below keeps
them apart. -/
structure State where
  running : Bool
  score : Nat
  gameOver : Bool
  highScore : Nat
  entities : Entities
deriving DecidableEq

/-- A queued React setter call. `incScore` is `setScore(prev => prev + 1)`. -/
inductive Update where
  | setRunning (b : Bool)
  | setScore (n : Nat)
  | incScore
  | setGameOver (b : Bool)
  | setHighScore (n : Nat)
  | setEntities (e : Entities)
deriving DecidableEq

/-- Effect of one queued setter call on the component state. -/
def Update.apply (s : State) : Update → State
  | .setRunning b => { s with running := b }
  | .setScore n => { s with score := n }
  | .incScore => { s with score := s.score + 1 }
  | .setGameOver b => { s with gameOver := b }
  | .setHighScore n => { s with highScore := n }
  | .setEntities e => { s with entities := e }

/-- Apply the queued setter calls in call order. -/
def commit (q : List Update) (s : State) : State :=
  q.foldl Update.apply s

/-- An event handed to the systems; a `spawn-pipe` event carries the value that
`Math.random()` returns while it is handled. -/
inductive GameEvent where
  | spawnPipe (draw : ℚ)
  | other
deriving DecidableEq

/-- The entities literal of `useState` (line 47) and of `startGame` (line 165). -/
def initialEntities (d : Dims) : Entities :=
  { bird := { x := 100, y := d.HEIGHT / 2 - BIRD_HEIGHT / 2,
              width := BIRD_WIDTH, height := BIRD_HEIGHT, velocity := 0 },
    pipes := [],
    scoreValue := 0 }

/-- The state of the first render (lines 18-21, 47-59). -/
def initialState (d : Dims) : State :=
  { running := false, score := 0, gameOver := false, highScore := 0,
    entities := initialEntities d }

/-- The setter calls of `gameOverHandler` (lines 181-187); `c` is the state seen by
the closure that calls it. -/
def gameOverHandler (c : State) : List Update :=
  [Update.setRunning false, Update.setGameOver true] ++
    (if c.score > c.highScore then [Update.setHighScore c.score] else [])

/-- The command `startGame` (lines 161-178). -/
def startGame (d : Dims) (s : State) : State :=
  commit [Update.setRunning true, Update.setGameOver false, Update.setScore 0,
          Update.setEntities (initialEntities d)] s

/-- The command `resetGame` (lines 190-192). -/
def resetGame (d : Dims) (s : State) : State :=
  startGame d s

/-- The command `jump` (lines 138-158). -/
def jump (d : Dims) (s : State) : State :=
  if !s.running && !s.gameOver then startGame d s
  else if s.gameOver then resetGame d s
  else { s with entities :=
          { s.entities with bird := { s.entities.bird with velocity := JUMP_FORCE } } }

/-- One iteration of the `for` loop of `physics` on the pipe at the current index
(lines 79-98): the pipe as the iteration leaves it and the setter calls made so far. -/
def loopBody (c : State) (bird : Bird) (p0 : Pipe) (q : List Update) : Pipe × List Update :=
  let p1 : Pipe := { p0 with x := p0.x - PIPE_SPEED }
  let pass : Bool := decide (p1.x + PIPE_WIDTH < bird.x) && !p1.scored
  let p2 : Pipe := if pass then { p1 with scored := true } else p1
  let q1 := if pass then q ++ [Update.incScore] else q
  let q2 :=
    if bird.x + BIRD_WIDTH > p2.x ∧ bird.x < p2.x + PIPE_WIDTH ∧
        (bird.y < p2.y ∨ bird.y + BIRD_HEIGHT > p2.y + GAP_SIZE) then
      q1 ++ gameOverHandler c
    else q1
  (p2, q2)

/-- The `for` loop of `physics` (lines 78-105) from index `i` on: `newPipes` is the
array being edited in place and `q` the setter calls made so far. A removal
(`splice(i, 1); i--`) continues at the same index. Every iteration uses one unit of
`fuel`; `physics` supplies the length of the array, which `pipeLoop_eq` shows to be
enough for the loop to run to its end. -/
def pipeLoop (c : State) (bird : Bird) :
    Nat → Nat → List Pipe → List Update → List Pipe × List Update
  | 0, _, newPipes, q => (newPipes, q)
  | fuel + 1, i, newPipes, q =>
    if h : i < newPipes.length then
      let r := loopBody c bird newPipes[i] q
      if r.1.x < -PIPE_WIDTH then
        pipeLoop c bird fuel i (newPipes.eraseIdx i) r.2
      else
        pipeLoop c bird fuel (i + 1) (newPipes.set i r.1) r.2
    else
      (newPipes, q)

/-- The system `physics` (lines 62-108): `c` is the rendered state its closure reads,
`time` the frame delta of the engine (never used by the source). Returns the new
entities and the setter calls made. -/
def physics (d : Dims) (c : State) (entities : Entities) (time : ℚ) :
    Entities × List Update :=
  if !c.running then (entities, [])
  else
    let velocity := entities.bird.velocity + GRAVITY
    let bird : Bird := { entities.bird with velocity := velocity, y := entities.bird.y + velocity }
    let q0 :=
      if bird.y ≥ d.HEIGHT - BIRD_HEIGHT ∨ bird.y ≤ 0 then gameOverHandler c else []
    let r := pipeLoop c bird entities.pipes.length 0 entities.pipes q0
    ({ entities with bird := bird, pipes := r.1 }, r.2)

/-- The two pipes pushed for one `spawn-pipe` event (lines 117-129). -/
def spawnPair (d : Dims) (draw : ℚ) : List Pipe :=
  let topPipeHeight := draw * (d.HEIGHT - GAP_SIZE - 100) + 50
  [ { x := d.WIDTH, y := topPipeHeight - d.HEIGHT, width := PIPE_WIDTH, height := d.HEIGHT,
      scored := false },
    { x := d.WIDTH, y := topPipeHeight + GAP_SIZE, width := PIPE_WIDTH, height := d.HEIGHT,
      scored := false } ]

/-- The system `pipeSpawning` (lines 111-135). -/
def pipeSpawning (d : Dims) (c : State) (entities : Entities) (events : List GameEvent) :
    Entities :=
  if !c.running then entities
  else
    events.foldl
      (fun ents e =>
        match e with
        | GameEvent.spawnPipe draw => { ents with pipes := ents.pipes ++ spawnPair d draw }
        | GameEvent.other => ents)
      entities

/-- One engine tick: `systems = [physics, pipeSpawning]` run on the entities with the
closures of the last render, then React applies the queued setter calls. -/
def advance (d : Dims) (time : ℚ) (events : List GameEvent) (s : State) : State :=
  let r := physics d s s.entities time
  commit r.2 { s with entities := pipeSpawning d s r.1 events }

/-- A sequence of engine ticks without events, one per frame delta in `times`. -/
def run (d : Dims) (times : List ℚ) (s : State) : State :=
  times.foldl (fun st time => advance d time [] st) s

/-- The states of the one-object reading of `State`, in which the engine steps the
object the commands write: the first render, followed by any sequence of `startGame`,
`resetGame`, `jump` and engine ticks whose `spawn-pipe` events carry draws of
`Math.random()`, that is values in `[0, 1)`. A trace that starts once and never jumps
is a trace of `Mounted` as well. -/
inductive Reachable (d : Dims) : State → Prop
  | init : Reachable d (initialState d)
  | start {s : State} : Reachable d s → Reachable d (startGame d s)
  | reset {s : State} : Reachable d s → Reachable d (resetGame d s)
  | jump {s : State} : Reachable d s → Reachable d (jump d s)
  | advance {s : State} (time : ℚ) (events : List GameEvent) :
      Reachable d s → (∀ r, GameEvent.spawnPipe r ∈ events → 0 ≤ r ∧ r < 1) →
      Reachable d (advance d time events s)

/-! ## Closed forms

One loop iteration on one pipe and the engine tick in closed form, read off the source
lines they name and shown equal to the program by the lemmas below; the pair relation
of the data model as a check on pipe lists. -/

/-- The bird after gravity is applied (lines 69-70). -/
def fall (b : Bird) : Bird :=
  { b with velocity := b.velocity + GRAVITY, y := b.y + (b.velocity + GRAVITY) }

/-- The pipe is counted in this iteration (lines 82-85): its translated right edge is
left of the bird and it is not yet scored. -/
def passes (bird : Bird) (p : Pipe) : Bool :=
  decide (p.x - PIPE_SPEED + PIPE_WIDTH < bird.x) && !p.scored

/-- The pipe as the iteration leaves it (lines 79-88). -/
def stepPipe (bird : Bird) (p : Pipe) : Pipe :=
  if passes bird p then { p with x := p.x - PIPE_SPEED, scored := true }
  else { p with x := p.x - PIPE_SPEED }

/-- The collision test of the iteration (lines 91-96) on the translated pipe. -/
def collides (bird : Bird) (p : Pipe) : Bool :=
  decide (bird.x + BIRD_WIDTH > p.x - PIPE_SPEED ∧ bird.x < p.x - PIPE_SPEED + PIPE_WIDTH ∧
    (bird.y < p.y ∨ bird.y + BIRD_HEIGHT > p.y + GAP_SIZE))

/-- The removal test (line 101) on a translated pipe. -/
def offScreen (p : Pipe) : Bool :=
  decide (p.x < -PIPE_WIDTH)

/-- The setter calls made by the iteration on pipe `p`. -/
def pipeUpdates (c : State) (bird : Bird) (p : Pipe) : List Update :=
  (if passes bird p then [Update.incScore] else []) ++
    (if collides bird p then gameOverHandler c else [])

/-- The boundary test (line 73) on the bird after gravity. -/
def hitsBoundary (d : Dims) (bird : Bird) : Bool :=
  decide (bird.y ≥ d.HEIGHT - BIRD_HEIGHT ∨ bird.y ≤ 0)

/-- Some collision condition (boundary or pipe) is raised during the step. -/
def collision (d : Dims) (s : State) : Bool :=
  hitsBoundary d (fall s.entities.bird) || s.entities.pipes.any (collides (fall s.entities.bird))

/-- The pipes pushed by `pipeSpawning` for one event. -/
def spawned (d : Dims) : GameEvent → List Pipe
  | GameEvent.spawnPipe draw => spawnPair d draw
  | GameEvent.other => []

/-- The pair relation of the data model on a pipe list: the pipes come two by two, an
upper one `u` followed by its lower one `l`, with `u.x = l.x` and
`l.y = u.y + u.height + GAP_SIZE`. -/
def paired : List Pipe → Bool
  | [] => true
  | [_] => false
  | u :: l :: rest =>
    decide (u.x = l.x) && decide (l.y = u.y + u.height + GAP_SIZE) && paired rest

/-- Closed form of `n` ticks of free flight: the bird falls for `n` frames and every
pipe moves left `n` times. -/
def glide (n : Nat) (s : State) : State :=
  { s with entities :=
      { s.entities with
        bird := { s.entities.bird with
                  velocity := s.entities.bird.velocity + n * GRAVITY,
                  y := s.entities.bird.y + n * s.entities.bird.velocity +
                        GRAVITY * n * (n + 1) / 2 },
        pipes := s.entities.pipes.map (fun p => { p with x := p.x - PIPE_SPEED * n }) } }

/-! ## Concrete windows and states used as witnesses and counterexamples -/

/-- A window of 400 by 800 points. -/
def phone : Dims := { WIDTH := 400, HEIGHT := 800 }

/-- A running game on `phone` with the bird at the start position and no pipes. -/
def runningState : State :=
  { running := true, score := 0, gameOver := false, highScore := 0,
    entities := initialEntities phone }

/-- A finished game on `phone`: the bird on the ground, one pair still on screen. -/
def finishedState : State :=
  { running := false, score := 3, gameOver := true, highScore := 5,
    entities :=
      { bird := { x := 100, y := 771, width := 40, height := 30, velocity := 12 },
        pipes := [ { x := 250, y := -400, width := 70, height := 800, scored := false },
                   { x := 250, y := 550, width := 70, height := 800, scored := false } ],
        scoreValue := 0 } }

/-- A running game on `phone` whose bird reaches the bottom edge exactly in the next
step: `769.5 + 0.5 = 800 - 30`. -/
def bottomContactState : State :=
  { running := true, score := 0, gameOver := false, highScore := 0,
    entities :=
      { bird := { x := 100, y := 1539 / 2, width := 40, height := 30, velocity := 0 },
        pipes := [],
        scoreValue := 0 } }

/-- A running game on `phone` with two adjacent pairs about to leave the screen (at
`x = -68`) followed by a pair that stays. -/
def retireState : State :=
  { running := true, score := 4, gameOver := false, highScore := 0,
    entities :=
      { bird := { x := 100, y := 385, width := 40, height := 30, velocity := 0 },
        pipes := [ { x := -68, y := -500, width := 70, height := 800, scored := true },
                   { x := -68, y := 450, width := 70, height := 800, scored := true },
                   { x := -68, y := -450, width := 70, height := 800, scored := true },
                   { x := -68, y := 500, width := 70, height := 800, scored := true },
                   { x := 250, y := -400, width := 70, height := 800, scored := false },
                   { x := 250, y := 550, width := 70, height := 800, scored := false } ],
        scoreValue := 0 } }

/-- A running game on `phone` with the bird inside the gap `[300, 450]` of a pair whose
right edge is one point short of being passed: `31 + 70 ≥ 100` and `28 + 70 < 100`. -/
def passState : State :=
  { running := true, score := 0, gameOver := false, highScore := 0,
    entities :=
      { bird := { x := 100, y := 385, width := 40, height := 30, velocity := 0 },
        pipes := [ { x := 31, y := -500, width := 70, height := 800, scored := false },
                   { x := 31, y := 450, width := 70, height := 800, scored := false } ],
        scoreValue := 0 } }

/-- A window only 30 points wide. -/
def narrow : Dims := { WIDTH := 30, HEIGHT := 800 }

/-- On `narrow`: start, one tick with a `spawn-pipe` event, one more tick. -/
def narrowTrace : State :=
  advance narrow 16 []
    (advance narrow 16 [GameEvent.spawnPipe (1 / 2)] (startGame narrow (initialState narrow)))

/-- A running game on `phone` whose next step both moves a pair past the bird and takes
the bird through the bottom edge (`760 + 12.5 ≥ 800 - 30`). -/
def crashState : State :=
  { running := true, score := 3, gameOver := false, highScore := 1,
    entities :=
      { bird := { x := 100, y := 760, width := 40, height := 30, velocity := 12 },
        pipes := [ { x := 31, y := -500, width := 70, height := 800, scored := false },
                   { x := 31, y := 450, width := 70, height := 800, scored := false } ],
        scoreValue := 0 } }

/-- A running game on `phone` with the bird at height `y` with velocity `v` and, at
`x`, the pair that the spawner makes for the draw `5/11` (gap `[300, 450]`). -/
def hover (y v x : ℚ) : State :=
  { running := true, score := 0, gameOver := false, highScore := 0,
    entities :=
      { bird := { x := 100, y := y, width := 40, height := 30, velocity := v },
        pipes := [ { x := x, y := -500, width := 70, height := 800, scored := false },
                   { x := x, y := 450, width := 70, height := 800, scored := false } ],
        scoreValue := 0 } }

/-- On `phone`: start, a tick with one `spawn-pipe` event (draw `5/11`), then three
jumps followed by 39, 39 and 8 ticks. -/
def flightTrace : State :=
  run phone (List.replicate 8 16) (jump phone
    (run phone (List.replicate 39 16) (jump phone
      (run phone (List.replicate 39 16) (jump phone
        (advance phone 16 [GameEvent.spawnPipe (5 / 11)]
          (startGame phone (initialState phone))))))))

/-- The state `flightTrace` ends in: the bird at `y = 323.5` moving up, the pair with
gap `[300, 450]` at `x = 142`, which overlaps the bird horizontally after the next
translation. -/
def gapState : State := hover (647 / 2) (-6) 142

/-- A window only 200 points high, less than `GAP_SIZE + 100`. -/
def shortWindow : Dims := { WIDTH := 400, HEIGHT := 200 }

/-- A running game on `phone` whose pair, at `x = 143`, has its left edge exactly on the
bird's right edge after the next translation (`143 - 3 = 100 + 40`); the bird is level
with the upper pipe, above the gap. -/
def touchState : State := hover 100 0 143

/-- The event is a `spawn-pipe` event (line 116). -/
def isSpawn : GameEvent → Bool
  | GameEvent.spawnPipe _ => true
  | GameEvent.other => false

/-- The pair pushed on `shortWindow` for the draw `1/2`: gap top
`1/2 * (200 - 150 - 100) + 50 = 25`. -/
def shortPair : List Pipe :=
  [ { x := 400, y := -175, width := 70, height := 200, scored := false },
    { x := 400, y := 175, width := 70, height := 200, scored := false } ]

/-- The entities of `touchState` without the upper pipe of its pair. -/
def touchRest : Entities :=
  { touchState.entities with pipes := touchState.entities.pipes.tail }

/-- The mounted component: the React atoms, whose `entities` is the atom that
`startGame` replaces and `jump` writes, and the entities the `GameEngine` keeps as its
own state and hands to the systems. The engine takes the `entities` prop when it mounts
(line 203) and the source never calls `swap`, so a later value of the atom does not
reach it. Until the first `startGame` both are one object, but nothing writes to it
while `running` is false. -/
structure Mounted where
  react : State
  engine : Entities
deriving DecidableEq

/-- The component as first rendered: the engine is handed the initial atom. -/
def mount (d : Dims) : Mounted :=
  { react := initialState d, engine := initialEntities d }

/-- The command `startGame` on the mounted component: it writes atoms only. -/
def pressStart (d : Dims) (m : Mounted) : Mounted :=
  { m with react := startGame d m.react }

/-- The command `jump` on the mounted component: it writes atoms only. -/
def pressJump (d : Dims) (m : Mounted) : Mounted :=
  { m with react := jump d m.react }

/-- One engine tick of the mounted component: the systems step the engine's entities
with the closures of the last render, the queued setter calls go to the atoms, and the
`entities` atom is not touched. -/
def engineTick (d : Dims) (time : ℚ) (events : List GameEvent) (m : Mounted) : Mounted :=
  { react := { advance d time events { m.react with entities := m.engine } with
               entities := m.react.entities },
    engine := (advance d time events { m.react with entities := m.engine }).entities }

/-- Round a rational to the nearest integer, a tie going to the even one. -/
def roundEven (q : ℚ) : ℤ :=
  if q - ⌊q⌋ < 1 / 2 then ⌊q⌋
  else if 1 / 2 < q - ⌊q⌋ then ⌊q⌋ + 1
  else if ⌊q⌋ % 2 = 0 then ⌊q⌋
  else ⌊q⌋ + 1

/-- Binary exponent of the unit in the last place of the double that holds `x`: 52
below the binary exponent of `x`, and not below that of the subnormal doubles. -/
def ulpExp (x : ℚ) : ℤ :=
  max (Int.log 2 |x| - 52) (-1074)

/-- The double that a JavaScript arithmetic operation stores for the exact result `x`
(IEEE 754 binary64, round to nearest, ties to even), for results in the finite range. -/
def toDouble (x : ℚ) : ℚ :=
  (roundEven (x / 2 ^ ulpExp x) : ℚ) * 2 ^ ulpExp x

/-- The value `topPipeHeight` of line 117, every arithmetic result rounded by `fl`:
`Math.random() * (HEIGHT - GAP_SIZE - 100) + 50`. -/
def gapTopRounded (fl : ℚ → ℚ) (d : Dims) (draw : ℚ) : ℚ :=
  fl (fl (draw * fl (fl (d.HEIGHT - GAP_SIZE) - 100)) + 50)

/-- The two pipes pushed for one `spawn-pipe` event (lines 117-129), every arithmetic
result rounded by `fl`; `spawnPair` is the instance without rounding. -/
def spawnPairRounded (fl : ℚ → ℚ) (d : Dims) (draw : ℚ) : List Pipe :=
  let topPipeHeight := gapTopRounded fl d draw
  [ { x := d.WIDTH, y := fl (topPipeHeight - d.HEIGHT), width := PIPE_WIDTH,
      height := d.HEIGHT, scored := false },
    { x := d.WIDTH, y := fl (topPipeHeight + GAP_SIZE), width := PIPE_WIDTH,
      height := d.HEIGHT, scored := false } ]

/-- The pipes come two by two with a common `x`. -/
def sharedX : List Pipe → Bool
  | [] => true
  | [_] => false
  | u :: l :: rest => decide (u.x = l.x) && sharedX rest

/-- A value of `Math.random()`: a multiple of `2 ^ (-52)` in `[0, 1)`, about 0.0701. -/
def drawR : ℚ := 315894713025340 / 2 ^ 52

/-- The upper pipe pushed on `phone` for the draw `drawR`, as the doubles store it:
`y` is about -711.4215057866102. -/
def upperR : Pipe :=
  { x := 400, y := -6257729742898310 / 2 ^ 43, width := 70, height := 800, scored := false }

/-- The lower pipe pushed on `phone` for the draw `drawR`, as the doubles store it:
`y` is about 238.57849421338977. -/
def lowerR : Pipe :=
  { x := 400, y := 8394234512797158 / 2 ^ 45, width := 70, height := 800, scored := false }

/-- A running game on `phone` holding the pair of `drawR` as the doubles store it. -/
def roundedState : State :=
  { running := true, score := 0, gameOver := false, highScore := 0,
    entities :=
      { bird := { x := 100, y := 385, width := 40, height := 30, velocity := 0 },
        pipes := [upperR, lowerR],
        scoreValue := 0 } }

/-- On `phone`: mount, start, one tick, then `jump`. -/
def mountedTrace : Mounted :=
  pressJump phone (engineTick phone 16 [] (pressStart phone (mount phone)))

/-- A running game on `phone` whose stepped bird carries the impulse. -/
def impulseState : State := hover 385 (-10) 400

end MainScreen2

namespace MainScreen

/-! ## The program: the turn-based grid game of `src/screen/mainscreen.js`

The component's `useState` atoms are the fields of `Component`. A handler reads the
atoms of the last render and calls setters; the calls are collected in call order as a
list of `Setter`s, which `applySetters` applies before the next render. Sounds,
animations and the `date` field of a history entry carry no game logic and are left
out. A cell index is one that the rendered board can produce, `row * boardSize + col`. -/

/-- A mark, the strings `X` and `O` of the source. -/
inductive Mark where
  | X
  | O
deriving DecidableEq

/-- A value of the `winner` atom other than `null`: a mark or the string `draw`. -/
inductive Outcome where
  | won (m : Mark)
  | draw
deriving DecidableEq

/-- The `score` object `{ X, O, draws }`. -/
structure Tally where
  X : Nat
  O : Nat
  draws : Nat
deriving DecidableEq

/-- An entry of `gameHistory` (lines 171, 187), without its `date`. -/
structure HistoryEntry where
  winner : Outcome
  boardSize : Nat
  playerX : String
  playerO : String
deriving DecidableEq

/-- The `gameState` atom. -/
inductive Screen where
  | menu
  | setup
  | playing
deriving DecidableEq

/-- The component state (lines 17-26); a board cell is `null` (`none`) or a mark. -/
structure Component where
  gameState : Screen
  boardSize : Nat
  playerX : String
  playerO : String
  currentPlayer : Mark
  board : List (Option Mark)
  winner : Option Outcome
  score : Tally
  gameHistory : List HistoryEntry
deriving DecidableEq

/-- A setter call. `addWin m` is `setScore(prev => ({...prev, [m]: prev[m] + 1}))`,
`addDraw` is `setScore(prev => ({...prev, draws: prev.draws + 1}))` and `addHistory e` is
`setGameHistory(prev => [...prev, e])`. -/
inductive Setter where
  | setBoard (b : List (Option Mark))
  | setBoardSize (n : Nat)
  | setWinner (w : Option Outcome)
  | setCurrentPlayer (m : Mark)
  | addWin (m : Mark)
  | addDraw
  | addHistory (e : HistoryEntry)
deriving DecidableEq

/-- Effect of one setter call on the component state. -/
def Setter.apply (s : Component) : Setter → Component
  | .setBoard b => { s with board := b }
  | .setBoardSize n => { s with boardSize := n }
  | .setWinner w => { s with winner := w }
  | .setCurrentPlayer m => { s with currentPlayer := m }
  | .addWin Mark.X => { s with score := { s.score with X := s.score.X + 1 } }
  | .addWin Mark.O => { s with score := { s.score with O := s.score.O + 1 } }
  | .addDraw => { s with score := { s.score with draws := s.score.draws + 1 } }
  | .addHistory e => { s with gameHistory := s.gameHistory ++ [e] }

/-- Apply the setter calls of a handler in call order. -/
def applySetters (q : List Setter) (s : Component) : Component :=
  q.foldl Setter.apply s

/-- The handler `initBoard` (lines 107-112). -/
def initBoard (size : Nat) : List Setter :=
  [Setter.setBoard (List.replicate (size * size) none), Setter.setBoardSize size,
   Setter.setWinner none, Setter.setCurrentPlayer Mark.X]

/-- The read `currentBoard[index]`: `null` and `undefined` (out of range) are both
falsy and different from every mark. -/
def cellAt (currentBoard : List (Option Mark)) (index : Nat) : Option Mark :=
  currentBoard.getD index none

/-- The array `lines` built by `checkWinner` (lines 131-157): for each `i` the row `i`
then the column `i`, then the two diagonals. -/
def lines (boardSize : Nat) : List (List Nat) :=
  (List.range boardSize).flatMap (fun i =>
    [ (List.range boardSize).map (fun j => i * boardSize + j),
      (List.range boardSize).map (fun j => j * boardSize + i) ]) ++
  [ (List.range boardSize).map (fun i => i * boardSize + i),
    (List.range boardSize).map (fun i => i * boardSize + (boardSize - 1 - i)) ]

/-- The test of line 162 on one line: `first` when it is a mark and every cell of the
line equals it. -/
def lineMark (currentBoard : List (Option Mark)) (line : List Nat) : Option Mark :=
  let first :=
    match line.head? with
    | some index => cellAt currentBoard index
    | none => none
  if first.isSome && line.all (fun index => cellAt currentBoard index == first) then first
  else none

/-- The loop `for (let line of lines)` (lines 160-175): the mark of the first line that
passes the test, at which the source returns. -/
def scan (currentBoard : List (Option Mark)) : List (List Nat) → Option Mark
  | [] => none
  | line :: rest =>
    match lineMark currentBoard line with
    | some first => some first
    | none => scan currentBoard rest

/-- The setter calls of `checkWinner` (lines 130-190); `c` is the state its closure
reads (`boardSize`, `playerX`, `playerO`). -/
def checkWinner (c : Component) (currentBoard : List (Option Mark)) : List Setter :=
  match scan currentBoard (lines c.boardSize) with
  | some first =>
    [Setter.setWinner (some (Outcome.won first)), Setter.addWin first,
     Setter.addHistory { winner := Outcome.won first, boardSize := c.boardSize,
                         playerX := c.playerX, playerO := c.playerO }]
  | none =>
    if !currentBoard.contains none then
      [Setter.setWinner (some Outcome.draw), Setter.addDraw,
       Setter.addHistory { winner := Outcome.draw, boardSize := c.boardSize,
                           playerX := c.playerX, playerO := c.playerO }]
    else []

/-- The setter calls of `handleCellPress` (lines 115-127), for an `index` inside the
board, the only ones `renderCell` passes: `newBoard[index] = currentPlayer` is then a
plain overwrite. -/
def handleCellPress (c : Component) (index : Nat) : List Setter :=
  if (cellAt c.board index).isSome || c.winner.isSome then []
  else
    let newBoard := c.board.set index (some c.currentPlayer)
    [Setter.setBoard newBoard] ++ checkWinner c newBoard ++
      [Setter.setCurrentPlayer (if c.currentPlayer = Mark.X then Mark.O else Mark.X)]

/-- One press of a cell followed by the render. -/
def press (s : Component) (index : Nat) : Component :=
  applySetters (handleCellPress s index) s

/-- The states of a game: `initBoard size` called in any state, followed by any
sequence of presses of cells of the board. -/
inductive Played (size : Nat) : Component → Prop
  | init (s0 : Component) : Played size (applySetters (initBoard size) s0)
  | press {s : Component} (index : Nat) :
      Played size s → index < size * size → Played size (press s index)

/-- How to Play, rules 2 and 3: mark `m` has `n` in a row on board `b`, in a row, a
column or one of the two diagonals of the `n` by `n` grid. -/
def InARow (n : Nat) (b : List (Option Mark)) (m : Mark) : Prop :=
  (∃ r, r < n ∧ ∀ c, c < n → cellAt b (r * n + c) = some m) ∨
  (∃ c, c < n ∧ ∀ r, r < n → cellAt b (r * n + c) = some m) ∨
  (∀ i, i < n → cellAt b (i * n + i) = some m) ∨
  (∀ i, i < n → cellAt b (i * n + (n - 1 - i)) = some m)

/-- Number of cells of the board holding mark `m`. -/
def marks (b : List (Option Mark)) (m : Mark) : Nat :=
  b.count (some m)

/-- Having `n` in a row is decidable: all its quantifiers are bounded. -/
instance decidableInARow (n : Nat) (b : List (Option Mark)) (m : Mark) :
    Decidable (InARow n b m) := by
  unfold InARow
  infer_instance

/-! ## Concrete boards and states used as witnesses -/

/-- The state of the first render, on the game screen. -/
def freshComponent : Component :=
  { gameState := Screen.playing, boardSize := 3, playerX := "Player X",
    playerO := "Player O", currentPlayer := Mark.X, board := List.replicate 9 none,
    winner := none, score := { X := 0, O := 0, draws := 0 }, gameHistory := [] }

/-- A 3 by 3 board on which X holds the left column and no row. -/
def columnBoard : List (Option Mark) :=
  [ some Mark.X, some Mark.O, none,
    some Mark.X, some Mark.O, none,
    some Mark.X, none, none ]

/-- A full 3 by 3 board without three in a row. -/
def drawBoard : List (Option Mark) :=
  [ some Mark.X, some Mark.O, some Mark.X,
    some Mark.X, some Mark.O, some Mark.O,
    some Mark.O, some Mark.X, some Mark.X ]

/-- A 3 by 3 board with empty cells and without three in a row. -/
def openBoard : List (Option Mark) :=
  [ some Mark.X, some Mark.O, none,
    none, some Mark.X, none,
    none, none, some Mark.O ]

/-- A 3 by 3 game after X pressed the centre and O the top left corner. -/
def twoMoves : Component :=
  press (press (applySetters (initBoard 3) freshComponent) 4) 0

end MainScreen

namespace MainScreen2

/-! ## Lemmas -/

theorem stepPipe_x (bird : Bird) (p : Pipe) : (stepPipe bird p).x = p.x - PIPE_SPEED := by
  unfold stepPipe; split <;> rfl

theorem stepPipe_y (bird : Bird) (p : Pipe) : (stepPipe bird p).y = p.y := by
  unfold stepPipe; split <;> rfl

theorem stepPipe_width (bird : Bird) (p : Pipe) : (stepPipe bird p).width = p.width := by
  unfold stepPipe; split <;> rfl

theorem stepPipe_height (bird : Bird) (p : Pipe) : (stepPipe bird p).height = p.height := by
  unfold stepPipe; split <;> rfl

theorem stepPipe_scored (bird : Bird) (p : Pipe) :
    (stepPipe bird p).scored = (p.scored || passes bird p) := by
  unfold stepPipe passes
  cases hs : p.scored <;> by_cases hx : p.x - PIPE_SPEED + PIPE_WIDTH < bird.x <;> simp [hs, hx]

/-- One iteration in closed form. -/
theorem loopBody_eq (c : State) (bird : Bird) (p : Pipe) (q : List Update) :
    loopBody c bird p q = (stepPipe bird p, q ++ pipeUpdates c bird p) := by
  unfold loopBody stepPipe pipeUpdates collides passes
  by_cases h1 : (decide (p.x - PIPE_SPEED + PIPE_WIDTH < bird.x) && !p.scored) = true <;>
  by_cases h2 : (bird.x + BIRD_WIDTH > p.x - PIPE_SPEED ∧ bird.x < p.x - PIPE_SPEED + PIPE_WIDTH ∧
      (bird.y < p.y ∨ bird.y + BIRD_HEIGHT > p.y + GAP_SIZE)) <;>
  simp [h1, h2]

/-- The index loop started behind a processed prefix `done`, with enough fuel for the
remaining pipes, maps `stepPipe` over them exactly once each, drops those that are off
screen, and appends the setter calls of each iteration in order. -/
theorem pipeLoop_eq (c : State) (bird : Bird) (rest : List Pipe) :
    ∀ (fuel : Nat) (done : List Pipe) (q : List Update), rest.length ≤ fuel →
      pipeLoop c bird fuel done.length (done ++ rest) q =
        (done ++ (rest.map (stepPipe bird)).filter (fun p => !offScreen p),
         q ++ rest.flatMap (pipeUpdates c bird)) := by
  induction rest with
  | nil =>
    intro fuel done q _
    cases fuel with
    | zero => simp [pipeLoop]
    | succ n => simp [pipeLoop]
  | cons p rest ih =>
    intro fuel done q hf
    cases fuel with
    | zero => simp at hf
    | succ n =>
      have hn : rest.length ≤ n := by simpa using hf
      have hlt : done.length < (done ++ p :: rest).length := by simp
      rw [pipeLoop, dif_pos hlt]
      have hget : (done ++ p :: rest)[done.length] = p := by
        rw [List.getElem_append_right (Nat.le_refl _)]
        simp
      simp only [hget, loopBody_eq]
      by_cases hoff : (stepPipe bird p).x < -PIPE_WIDTH
      · rw [if_pos hoff]
        have he : (done ++ p :: rest).eraseIdx done.length = done ++ rest := by
          rw [List.eraseIdx_append_of_length_le (Nat.le_refl _)]
          simp
        rw [he, ih n done _ hn]
        simp [offScreen, hoff, List.append_assoc]
      · rw [if_neg hoff]
        have hs : (done ++ p :: rest).set done.length (stepPipe bird p) =
            (done ++ [stepPipe bird p]) ++ rest := by
          simp
        have hl : done.length + 1 = (done ++ [stepPipe bird p]).length := by simp
        rw [hs, hl, ih n (done ++ [stepPipe bird p]) _ hn]
        simp [offScreen, hoff, List.append_assoc]

/-- The system `physics` does nothing when the closure sees `running = false`. -/
theorem physics_stopped (d : Dims) (c : State) (e : Entities) (time : ℚ)
    (h : c.running = false) : physics d c e time = (e, []) := by
  simp [physics, h]

/-- The system `physics` in closed form when the closure sees `running = true`. -/
theorem physics_running (d : Dims) (c : State) (e : Entities) (time : ℚ)
    (h : c.running = true) :
    physics d c e time =
      ({ e with bird := fall e.bird,
                pipes := (e.pipes.map (stepPipe (fall e.bird))).filter (fun p => !offScreen p) },
       (if hitsBoundary d (fall e.bird) then gameOverHandler c else []) ++
         e.pipes.flatMap (pipeUpdates c (fall e.bird))) := by
  have hl := pipeLoop_eq c (fall e.bird) e.pipes e.pipes.length []
    (if hitsBoundary d (fall e.bird) then gameOverHandler c else []) (Nat.le_refl _)
  simp only [List.length_nil, List.nil_append] at hl
  simp only [physics, h, Bool.not_true, Bool.false_eq_true, if_false]
  have hb : (if (fall e.bird).y ≥ d.HEIGHT - BIRD_HEIGHT ∨ (fall e.bird).y ≤ 0 then
      gameOverHandler c else []) =
      (if hitsBoundary d (fall e.bird) then gameOverHandler c else []) := by
    simp [hitsBoundary]
  change ({ e with bird := fall e.bird,
                   pipes := (pipeLoop c (fall e.bird) e.pipes.length 0 e.pipes
                     (if (fall e.bird).y ≥ d.HEIGHT - BIRD_HEIGHT ∨ (fall e.bird).y ≤ 0 then
                       gameOverHandler c else [])).1 },
           (pipeLoop c (fall e.bird) e.pipes.length 0 e.pipes
                     (if (fall e.bird).y ≥ d.HEIGHT - BIRD_HEIGHT ∨ (fall e.bird).y ≤ 0 then
                       gameOverHandler c else [])).2) = _
  rw [hb, hl]

theorem commit_append (q1 q2 : List Update) (s : State) :
    commit (q1 ++ q2) s = commit q2 (commit q1 s) := by
  simp [commit]

theorem commit_nil (s : State) : commit [] s = s := rfl

/-- Effect of the setter calls of `gameOverHandler`. -/
theorem commit_gameOverHandler (c st : State) :
    commit (gameOverHandler c) st =
      { st with running := false, gameOver := true,
                highScore := if c.score > c.highScore then c.score else st.highScore } := by
  unfold gameOverHandler commit
  by_cases h : c.score > c.highScore <;> simp [h, Update.apply]

/-- Effect of the setter calls queued by the loop over the pipes `ps`. -/
theorem commit_pipeUpdates (c : State) (b : Bird) (ps : List Pipe) :
    ∀ st : State, commit (ps.flatMap (pipeUpdates c b)) st =
      { st with running := if ps.any (collides b) then false else st.running,
                score := st.score + ps.countP (passes b),
                gameOver := if ps.any (collides b) then true else st.gameOver,
                highScore := if ps.any (collides b) ∧ c.score > c.highScore then c.score
                             else st.highScore } := by
  induction ps with
  | nil => intro st; simp [commit]
  | cons p ps ih =>
    intro st
    rw [List.flatMap_cons, commit_append, ih]
    unfold pipeUpdates
    rw [commit_append]
    have hinc : ∀ t : State, commit [Update.incScore] t = { t with score := t.score + 1 } :=
      fun _ => rfl
    cases hp : passes b p <;> cases hc : collides b p <;>
      by_cases hs : c.score > c.highScore <;>
      simp only [hp, hc, if_true, if_false, Bool.false_eq_true, commit_gameOverHandler,
        commit_nil, hinc] <;>
      simp [hp, hc, hs, List.countP_cons] <;>
      omega

/-- The systems have no effect on a state that is not running. -/
theorem advance_stopped (d : Dims) (time : ℚ) (events : List GameEvent) (s : State)
    (h : s.running = false) : advance d time events s = s := by
  cases s
  simp only at h
  subst h
  simp [advance, physics_stopped, pipeSpawning, commit]

/-- One engine tick on a running state, in closed form. -/
theorem advance_running (d : Dims) (time : ℚ) (events : List GameEvent) (s : State)
    (h : s.running = true) :
    advance d time events s =
      { running := !collision d s,
        score := s.score + s.entities.pipes.countP (passes (fall s.entities.bird)),
        gameOver := collision d s || s.gameOver,
        highScore := if collision d s = true ∧ s.score > s.highScore then s.score
                     else s.highScore,
        entities := pipeSpawning d s (physics d s s.entities time).1 events } := by
  unfold advance
  simp only [(physics_running d s s.entities time h)]
  rw [commit_append, commit_pipeUpdates]
  unfold collision
  cases hb : hitsBoundary d (fall s.entities.bird) <;>
    cases ha : s.entities.pipes.any (collides (fall s.entities.bird)) <;>
    by_cases hs : s.score > s.highScore <;>
    simp only [if_true, if_false, Bool.false_eq_true, commit_gameOverHandler, commit_nil] <;>
    simp [h, hs]

/-- The system `pipeSpawning` never touches the bird. -/
theorem pipeSpawning_bird (d : Dims) (c : State) (e : Entities) (events : List GameEvent) :
    (pipeSpawning d c e events).bird = e.bird := by
  unfold pipeSpawning
  split
  · rfl
  · induction events generalizing e with
    | nil => rfl
    | cons ev evs ih =>
      cases ev with
      | spawnPipe r => simpa using ih _
      | other => simpa using ih _

/-- The bird after one tick of a running state. -/
theorem advance_bird (d : Dims) (time : ℚ) (events : List GameEvent) (s : State)
    (h : s.running = true) :
    (advance d time events s).entities.bird = fall s.entities.bird := by
  rw [advance_running d time events s h]
  simp [pipeSpawning_bird, physics_running d s s.entities time h]

/-- The system `pipeSpawning` in closed form when the closure sees `running = true`. -/
theorem pipeSpawning_running (d : Dims) (c : State) (e : Entities) (events : List GameEvent)
    (h : c.running = true) :
    pipeSpawning d c e events = { e with pipes := e.pipes ++ events.flatMap (spawned d) } := by
  unfold pipeSpawning
  simp only [h, Bool.not_true, Bool.false_eq_true, if_false]
  induction events generalizing e with
  | nil => simp
  | cons ev evs ih =>
    cases ev with
    | spawnPipe r => simp [ih, spawned, List.append_assoc]
    | other => simp [ih, spawned]

/-- The pipes returned by `physics` on a running state. -/
theorem physics_pipes (d : Dims) (s : State) (time : ℚ) (hr : s.running = true) :
    (physics d s s.entities time).1.pipes =
      (s.entities.pipes.map (stepPipe (fall s.entities.bird))).filter
        (fun p => !offScreen p) := by
  rw [physics_running d s s.entities time hr]

theorem offScreen_stepPipe (b : Bird) (p : Pipe) :
    offScreen (stepPipe b p) = decide (p.x - PIPE_SPEED + PIPE_WIDTH < 0) := by
  unfold offScreen
  rw [stepPipe_x]
  have : p.x - PIPE_SPEED < -PIPE_WIDTH ↔ p.x - PIPE_SPEED + PIPE_WIDTH < 0 := by
    constructor <;> intro h <;> linarith
  simp [this]

theorem paired_spawnPair (d : Dims) (draw : ℚ) : paired (spawnPair d draw) = true := by
  simp only [spawnPair, paired, Bool.and_eq_true, decide_eq_true_eq, and_true, true_and]
  ring

/-- Both members of a pair are translated alike and retired together. -/
theorem paired_step (b : Bird) : ∀ ps : List Pipe, paired ps = true →
    paired ((ps.map (stepPipe b)).filter (fun p => !offScreen p)) = true
  | [], _ => rfl
  | [_], h => by simp [paired] at h
  | u :: l :: rest, h => by
    simp only [paired, Bool.and_eq_true, decide_eq_true_eq] at h
    obtain ⟨⟨hx, hy⟩, hrest⟩ := h
    have ih := paired_step b rest hrest
    have hoff : offScreen (stepPipe b l) = offScreen (stepPipe b u) := by
      rw [offScreen_stepPipe, offScreen_stepPipe, hx]
    simp only [List.map_cons, List.filter_cons, hoff]
    cases hu : offScreen (stepPipe b u)
    · simp only [Bool.not_false, if_true, paired, Bool.and_eq_true, decide_eq_true_eq]
      refine ⟨⟨?_, ?_⟩, ih⟩
      · rw [stepPipe_x, stepPipe_x, hx]
      · rw [stepPipe_y, stepPipe_y, stepPipe_height, hy]
    · simpa using ih

theorem paired_physics (d : Dims) (s : State) (time : ℚ)
    (h : paired s.entities.pipes = true) :
    paired (physics d s s.entities time).1.pipes = true := by
  cases hr : s.running
  · rw [physics_stopped d s s.entities time hr]; exact h
  · rw [physics_pipes d s time hr]; exact paired_step _ _ h

theorem fall_x (b : Bird) : (fall b).x = b.x := rfl

theorem fall_y (b : Bird) : (fall b).y = b.y + (b.velocity + GRAVITY) := rfl

/-- The score after one tick of a running state. -/
theorem advance_score (d : Dims) (time : ℚ) (events : List GameEvent) (s : State)
    (h : s.running = true) :
    (advance d time events s).score =
      s.score + s.entities.pipes.countP (passes (fall s.entities.bird)) := by
  rw [advance_running d time events s h]

/-- The pipes after one tick without events of a running state. -/
theorem advance_pipes (d : Dims) (time : ℚ) (s : State) (h : s.running = true) :
    (advance d time [] s).entities.pipes =
      (s.entities.pipes.map (stepPipe (fall s.entities.bird))).filter
        (fun p => !offScreen p) := by
  rw [advance_running d time [] s h, pipeSpawning_running d s _ [] h]
  simp [physics_pipes d s time h]

/-- Pipes that are all scored add nothing to the score and stay scored. -/
theorem advance_allScored (d : Dims) (time : ℚ) (s : State)
    (h : ∀ p ∈ s.entities.pipes, p.scored = true) :
    (advance d time [] s).score = s.score ∧
    ∀ p ∈ (advance d time [] s).entities.pipes, p.scored = true := by
  cases hr : s.running
  · rw [advance_stopped d time [] s hr]; exact ⟨rfl, h⟩
  · constructor
    · rw [advance_score d time [] s hr]
      have : s.entities.pipes.countP (passes (fall s.entities.bird)) = 0 := by
        rw [List.countP_eq_zero]
        intro p hp
        simp [passes, h p hp]
      omega
    · intro p hp
      rw [advance_pipes d time s hr, List.mem_filter, List.mem_map] at hp
      obtain ⟨⟨p0, hp0, rfl⟩, _⟩ := hp
      rw [stepPipe_scored, h p0 hp0]
      rfl

theorem run_allScored (d : Dims) (times : List ℚ) :
    ∀ s : State, (∀ p ∈ s.entities.pipes, p.scored = true) → (run d times s).score = s.score := by
  induction times with
  | nil => intro s _; rfl
  | cons t ts ih =>
    intro s h
    have h1 := advance_allScored d t s h
    show (run d ts (advance d t [] s)).score = s.score
    rw [ih _ h1.2, h1.1]

/-- A pair made by the spawner can never be crossed: whenever its translated members
overlap the bird horizontally, the test of lines 91-96 holds for the lower member (bird
above `l.y`, that is inside or above the gap) or else for the upper one. -/
theorem spawnPair_always_collides (d : Dims) (draw x : ℚ) (b : Bird)
    (hH : 0 < d.HEIGHT)
    (h1 : b.x + BIRD_WIDTH > x - PIPE_SPEED) (h2 : b.x < x - PIPE_SPEED + PIPE_WIDTH) :
    ((spawnPair d draw).map (fun p => { p with x := x })).any (collides b) = true := by
  simp only [spawnPair, List.map_cons, List.map_nil, List.any_cons, List.any_nil,
    Bool.or_false, collides, Bool.or_eq_true, decide_eq_true_eq]
  by_cases hy : b.y < draw * (d.HEIGHT - GAP_SIZE - 100) + 50 + GAP_SIZE
  · exact Or.inr ⟨h1, h2, Or.inl hy⟩
  · refine Or.inl ⟨h1, h2, Or.inr ?_⟩
    simp only [BIRD_HEIGHT, GAP_SIZE] at *
    linarith

theorem startGame_running (d : Dims) (s : State) : (startGame d s).running = true := rfl

theorem startGame_highScore (d : Dims) (s : State) :
    (startGame d s).highScore = s.highScore := rfl

theorem jump_highScore (d : Dims) (s : State) : (jump d s).highScore = s.highScore := by
  unfold jump
  split
  · rfl
  · split <;> rfl

/-- The high score after one tick. -/
theorem advance_highScore (d : Dims) (time : ℚ) (events : List GameEvent) (s : State) :
    (advance d time events s).highScore =
      if s.running = true ∧ collision d s = true ∧ s.score > s.highScore then s.score
      else s.highScore := by
  cases hr : s.running
  · rw [advance_stopped d time events s hr]; simp
  · rw [advance_running d time events s hr]; simp

theorem run_append (d : Dims) (t1 t2 : List ℚ) (s : State) :
    run d (t1 ++ t2) s = run d t2 (run d t1 s) := by
  simp [run]

theorem reachable_run (d : Dims) (times : List ℚ) :
    ∀ s : State, Reachable d s → Reachable d (run d times s) := by
  induction times with
  | nil => intro s h; exact h
  | cons t ts ih =>
    intro s h
    exact ih _ (Reachable.advance t [] h (by simp))

/-- One tick of a running state that meets no boundary and whose pipes all stay to the
right of the bird only lets the bird fall and the pipes move. -/
theorem advance_free (d : Dims) (time : ℚ) (s : State) (hr : s.running = true)
    (hx : s.entities.bird.x = 100)
    (hy : 0 < (fall s.entities.bird).y ∧ (fall s.entities.bird).y < d.HEIGHT - BIRD_HEIGHT)
    (hp : ∀ p ∈ s.entities.pipes, 140 ≤ p.x - PIPE_SPEED) :
    advance d time [] s =
      { s with entities :=
          { s.entities with
            bird := fall s.entities.bird,
            pipes := s.entities.pipes.map (fun p => { p with x := p.x - PIPE_SPEED }) } } := by
  have hB : hitsBoundary d (fall s.entities.bird) = false := by
    simp only [hitsBoundary, decide_eq_false_iff_not, not_or, not_le, ge_iff_le]
    exact ⟨hy.2, hy.1⟩
  have hA : s.entities.pipes.any (collides (fall s.entities.bird)) = false := by
    rw [List.any_eq_false]
    intro p hmem
    have := hp p hmem
    simp only [collides, fall_x, hx, BIRD_WIDTH, decide_eq_true_eq, not_and]
    intro h1
    linarith
  have hP : ∀ p ∈ s.entities.pipes, passes (fall s.entities.bird) p = false := by
    intro p hmem
    have := hp p hmem
    have hn : ¬ (p.x - PIPE_SPEED + PIPE_WIDTH < 100) := by
      simp only [PIPE_WIDTH]; linarith
    simp [passes, fall_x, hx, hn]
  have hC : s.entities.pipes.countP (passes (fall s.entities.bird)) = 0 := by
    rw [List.countP_eq_zero]
    intro p hmem
    simp [hP p hmem]
  have hL : (s.entities.pipes.map (stepPipe (fall s.entities.bird))).filter
      (fun p => !offScreen p) =
      s.entities.pipes.map (fun p => { p with x := p.x - PIPE_SPEED }) := by
    have hall : ∀ p ∈ s.entities.pipes,
        stepPipe (fall s.entities.bird) p = { p with x := p.x - PIPE_SPEED } ∧
        offScreen (stepPipe (fall s.entities.bird) p) = false := by
      intro p hmem
      have := hp p hmem
      refine ⟨by simp [stepPipe, hP p hmem], ?_⟩
      rw [offScreen_stepPipe]
      simp only [PIPE_WIDTH, decide_eq_false_iff_not, not_lt]
      linarith
    generalize s.entities.pipes = ps at hall
    induction ps with
    | nil => rfl
    | cons p ps ih =>
      have h1 := hall p (List.mem_cons_self _ _)
      simp only [List.map_cons, List.filter_cons, h1.2, Bool.not_false, if_true]
      rw [ih (fun q hq => hall q (List.mem_cons_of_mem _ hq)), h1.1]
  rw [advance_running d time [] s hr, pipeSpawning_running d s _ [] hr,
    physics_running d s s.entities time hr, hL]
  cases s
  simp only at hr
  subst hr
  simp [collision, hB, hA, hC]

theorem glide_zero (s : State) : glide 0 s = s := by
  cases s with
  | mk running score gameOver highScore entities =>
    cases entities with
    | mk bird pipes scoreValue =>
      cases bird
      simp [glide]

theorem glide_succ (d : Dims) (time : ℚ) (n : Nat) (s : State) (hr : s.running = true)
    (hx : s.entities.bird.x = 100)
    (hy : 0 < s.entities.bird.y + ((n + 1 : Nat) : ℚ) * s.entities.bird.velocity +
            GRAVITY * ((n + 1 : Nat) : ℚ) * (((n + 1 : Nat) : ℚ) + 1) / 2 ∧
          s.entities.bird.y + ((n + 1 : Nat) : ℚ) * s.entities.bird.velocity +
            GRAVITY * ((n + 1 : Nat) : ℚ) * (((n + 1 : Nat) : ℚ) + 1) / 2 <
            d.HEIGHT - BIRD_HEIGHT)
    (hp : ∀ p ∈ s.entities.pipes, 140 ≤ p.x - PIPE_SPEED * ((n + 1 : Nat) : ℚ)) :
    advance d time [] (glide n s) = glide (n + 1) s := by
  have hfy : (fall (glide n s).entities.bird).y =
      s.entities.bird.y + ((n + 1 : Nat) : ℚ) * s.entities.bird.velocity +
        GRAVITY * ((n + 1 : Nat) : ℚ) * (((n + 1 : Nat) : ℚ) + 1) / 2 := by
    simp only [fall, glide, Nat.cast_add, Nat.cast_one]
    ring
  rw [advance_free d time (glide n s) hr hx (by rw [hfy]; exact hy)]
  · simp only [glide, fall, List.map_map, Nat.cast_add, Nat.cast_one]
    congr 2
    · congr 1 <;> ring
    · apply List.map_congr_left
      intro p _
      simp only [Function.comp]
      congr 1
      ring
  · intro p hmem
    simp only [glide, List.mem_map] at hmem
    obtain ⟨p0, hp0, rfl⟩ := hmem
    have := hp p0 hp0
    simp only [Nat.cast_add, Nat.cast_one] at this
    simp only
    linarith

/-- Ticks of free flight in closed form. -/
theorem run_glide (d : Dims) (time : ℚ) (s : State) (hr : s.running = true)
    (hx : s.entities.bird.x = 100) :
    ∀ n : Nat,
      (∀ m : Nat, 1 ≤ m → m ≤ n →
        (0 < s.entities.bird.y + (m : ℚ) * s.entities.bird.velocity +
              GRAVITY * (m : ℚ) * ((m : ℚ) + 1) / 2 ∧
         s.entities.bird.y + (m : ℚ) * s.entities.bird.velocity +
              GRAVITY * (m : ℚ) * ((m : ℚ) + 1) / 2 < d.HEIGHT - BIRD_HEIGHT) ∧
        ∀ p ∈ s.entities.pipes, 140 ≤ p.x - PIPE_SPEED * (m : ℚ)) →
      run d (List.replicate n time) s = glide n s := by
  intro n
  induction n with
  | zero => intro _; rw [glide_zero]; rfl
  | succ n ih =>
    intro hsafe
    rw [List.replicate_succ', run_append,
      ih (fun m h1 h2 => hsafe m h1 (Nat.le_succ_of_le h2))]
    have h := hsafe (n + 1) (Nat.succ_le_succ (Nat.zero_le n)) (Nat.le_refl _)
    exact glide_succ d time n s hr hx h.1 h.2

theorem jump_hover (y v x : ℚ) : jump phone (hover y v x) = hover y (-10) x := by
  simp [jump, hover, JUMP_FORCE]

theorem run_hover (n : Nat) (y v x : ℚ)
    (hsafe : ∀ m : Nat, 1 ≤ m → m ≤ n →
      (0 < y + (m : ℚ) * v + (m : ℚ) * ((m : ℚ) + 1) / 4 ∧
        y + (m : ℚ) * v + (m : ℚ) * ((m : ℚ) + 1) / 4 < 770) ∧ 140 ≤ x - 3 * (m : ℚ)) :
    run phone (List.replicate n 16) (hover y v x) =
      hover (y + (n : ℚ) * v + (n : ℚ) * ((n : ℚ) + 1) / 4) (v + (n : ℚ) / 2)
        (x - 3 * (n : ℚ)) := by
  rw [run_glide phone 16 (hover y v x) rfl rfl n]
  · simp only [glide, hover, GRAVITY, PIPE_SPEED, List.map_cons, List.map_nil]
    congr 3 <;> ring
  · intro m h1 h2
    have h := hsafe m h1 h2
    simp only [hover, GRAVITY, PIPE_SPEED, phone, BIRD_HEIGHT, List.mem_cons,
      List.mem_singleton, List.not_mem_nil, or_false]
    refine ⟨⟨?_, ?_⟩, ?_⟩
    · have := h.1.1; linarith
    · have := h.1.2; linarith
    · rintro p (rfl | rfl) <;> exact h.2

theorem flightTrace_eq : flightTrace = hover (647 / 2) (-6) 142 := by
  have e2 : advance phone 16 [GameEvent.spawnPipe (5 / 11)]
      (startGame phone (initialState phone)) = hover (771 / 2) (1 / 2) 400 := by
    have h1 : (startGame phone (initialState phone)).running = true := rfl
    rw [advance_running phone 16 _ _ h1, pipeSpawning_running phone _ _ _ h1,
      physics_running phone _ _ 16 h1]
    norm_num [hover, collision, hitsBoundary, collides, passes, fall, startGame, commit,
      Update.apply, initialState, initialEntities, spawned, spawnPair, phone, GRAVITY,
      BIRD_HEIGHT, BIRD_WIDTH, PIPE_SPEED, PIPE_WIDTH, GAP_SIZE]
  have e4 : run phone (List.replicate 39 16) (hover (771 / 2) (-10) 400) =
      hover (771 / 2) (19 / 2) 283 := by
    rw [run_hover 39]
    · norm_num
    · intro m h1 h2
      interval_cases m <;> norm_num
  have e6 : run phone (List.replicate 39 16) (hover (771 / 2) (-10) 283) =
      hover (771 / 2) (19 / 2) 166 := by
    rw [run_hover 39]
    · norm_num
    · intro m h1 h2
      interval_cases m <;> norm_num
  have e8 : run phone (List.replicate 8 16) (hover (771 / 2) (-10) 166) =
      hover (647 / 2) (-6) 142 := by
    rw [run_hover 8]
    · norm_num
    · intro m h1 h2
      interval_cases m <;> norm_num
  unfold flightTrace
  rw [e2, jump_hover, e4, jump_hover, e6, jump_hover, e8]

theorem flightTrace_reachable : Reachable phone flightTrace := by
  unfold flightTrace
  refine reachable_run _ _ _ (Reachable.jump (reachable_run _ _ _ (Reachable.jump
    (reachable_run _ _ _ (Reachable.jump
      (Reachable.advance 16 _ (Reachable.start Reachable.init) ?_))))))
  intro r hr
  simp only [List.mem_singleton, GameEvent.spawnPipe.injEq] at hr
  subst hr
  norm_num

theorem spawned_length (d : Dims) (events : List GameEvent) :
    (events.flatMap (spawned d)).length = 2 * events.countP isSpawn := by
  induction events with
  | nil => rfl
  | cons ev evs ih =>
    cases ev with
    | spawnPipe r =>
      simp only [List.flatMap_cons, List.length_append, ih, spawned, spawnPair,
        List.length_cons, List.length_nil, List.countP_cons, isSpawn, if_true]
      omega
    | other =>
      simp only [List.flatMap_cons, List.length_append, ih, spawned, List.length_nil,
        List.countP_cons, isSpawn]
      simp

theorem spawned_x (d : Dims) (events : List GameEvent) :
    ∀ p ∈ events.flatMap (spawned d), p.x = d.WIDTH := by
  intro p hp
  rw [List.mem_flatMap] at hp
  obtain ⟨ev, _, hmem⟩ := hp
  cases ev with
  | spawnPipe r =>
    simp only [spawned, spawnPair, List.mem_cons, List.mem_singleton, List.not_mem_nil,
      or_false] at hmem
    rcases hmem with rfl | rfl <;> rfl
  | other => simp [spawned] at hmem

/-- An iteration on a pipe whose translated box only touches the bird's box on a
vertical edge makes no setter call. -/
theorem pipeUpdates_touching (c : State) (b : Bird) (p : Pipe)
    (ht : b.x + BIRD_WIDTH = p.x - PIPE_SPEED ∨ b.x = p.x - PIPE_SPEED + PIPE_WIDTH) :
    pipeUpdates c b p = [] := by
  have hp : passes b p = false := by
    have : ¬ (p.x - PIPE_SPEED + PIPE_WIDTH < b.x) := by
      rcases ht with h | h
      · simp only [BIRD_WIDTH, PIPE_WIDTH] at *; linarith
      · rw [← h]; exact lt_irrefl _
    simp [passes, this]
  have hc : collides b p = false := by
    simp only [collides, decide_eq_false_iff_not, not_and]
    intro h1 h2
    rcases ht with h | h
    · rw [h] at h1; exact absurd h1 (lt_irrefl _)
    · rw [← h] at h2; exact absurd h2 (lt_irrefl _)
  simp [pipeUpdates, hp, hc]

theorem ulpExp_eq (x : ℚ) (k : ℤ) (h1 : (2 : ℚ) ^ k ≤ |x|) (h2 : |x| < (2 : ℚ) ^ (k + 1))
    (hk : -1074 ≤ k - 52) : ulpExp x = k - 52 := by
  have hpos : 0 < |x| := lt_of_lt_of_le (by positivity) h1
  have hlog : Int.log 2 |x| = k := by
    have ha : k ≤ Int.log 2 |x| := by
      rw [← Int.zpow_le_iff_le_log (by norm_num) hpos]
      exact_mod_cast h1
    have hb : Int.log 2 |x| < k + 1 := by
      rw [← Int.lt_zpow_iff_log_lt (by norm_num) hpos]
      exact_mod_cast h2
    omega
  unfold ulpExp
  rw [hlog]
  exact max_eq_left hk

theorem roundEven_down (q : ℚ) (f : ℤ) (h1 : (f : ℚ) ≤ q) (h2 : q - f < 1 / 2) :
    roundEven q = f := by
  have hf : ⌊q⌋ = f := Int.floor_eq_iff.2 ⟨h1, by linarith⟩
  unfold roundEven
  rw [hf, if_pos h2]

theorem roundEven_tie_odd (q : ℚ) (f : ℤ) (h1 : q = f + 1 / 2) (h2 : f % 2 = 1) :
    roundEven q = f + 1 := by
  have hf : ⌊q⌋ = f := Int.floor_eq_iff.2 ⟨by linarith, by linarith⟩
  unfold roundEven
  rw [hf, if_neg (by linarith), if_neg (by linarith), if_neg (by omega)]

/-- The double of a result whose binary exponent is `k`, a normal one. -/
theorem toDouble_eq (x : ℚ) (k : ℤ) (h1 : (2 : ℚ) ^ k ≤ |x|) (h2 : |x| < (2 : ℚ) ^ (k + 1))
    (hk : -1074 ≤ k - 52) :
    toDouble x = (roundEven (x / 2 ^ (k - 52)) : ℚ) * 2 ^ (k - 52) := by
  unfold toDouble
  rw [ulpExp_eq x k h1 h2 hk]

theorem toDouble_drawR : toDouble drawR = drawR := by
  unfold drawR
  rw [toDouble_eq _ (-4) (by norm_num [abs_of_pos]) (by norm_num [abs_of_pos]) (by norm_num)]
  rw [roundEven_down _ (315894713025340 * 16) (by norm_num) (by norm_num)]
  norm_num

theorem toDouble_650 : toDouble (800 - 150) = 650 := by
  rw [toDouble_eq _ 9 (by norm_num) (by norm_num) (by norm_num)]
  rw [roundEven_down _ (650 * 2 ^ 43) (by norm_num) (by norm_num)]
  norm_num

theorem toDouble_550 : toDouble (650 - 100) = 550 := by
  rw [toDouble_eq _ 9 (by norm_num) (by norm_num) (by norm_num)]
  rw [roundEven_down _ (550 * 2 ^ 43) (by norm_num) (by norm_num)]
  norm_num

/-- The product `drawR * 550` is rounded down in the 47th binary place. -/
theorem toDouble_product :
    toDouble (315894713025340 / 2 ^ 52 * 550) = 5429440380123031 / 2 ^ 47 := by
  rw [toDouble_eq _ 5 (by norm_num [abs_of_pos]) (by norm_num [abs_of_pos]) (by norm_num)]
  rw [roundEven_down _ 5429440380123031 (by norm_num) (by norm_num)]
  norm_num

/-- The gap top is a tie in the 46th binary place and goes to the even neighbour. -/
theorem toDouble_gapTop :
    toDouble (5429440380123031 / 2 ^ 47 + 50) = 6233157398944716 / 2 ^ 46 := by
  rw [toDouble_eq _ 6 (by norm_num [abs_of_pos]) (by norm_num [abs_of_pos]) (by norm_num)]
  rw [roundEven_tie_odd _ 6233157398944715 (by norm_num) (by norm_num)]
  norm_num

/-- The upper `y` is a tie in the 43rd binary place and goes to the even neighbour. -/
theorem toDouble_upperY :
    toDouble (6233157398944716 / 2 ^ 46 - 800) = -6257729742898310 / 2 ^ 43 := by
  rw [toDouble_eq _ 9 (by norm_num [abs_of_neg]) (by norm_num [abs_of_neg]) (by norm_num)]
  rw [roundEven_tie_odd _ (-6257729742898311) (by norm_num) (by norm_num)]
  norm_num

/-- The lower `y` is exact in the 45th binary place. -/
theorem toDouble_lowerY :
    toDouble (6233157398944716 / 2 ^ 46 + 150) = 8394234512797158 / 2 ^ 45 := by
  rw [toDouble_eq _ 7 (by norm_num [abs_of_pos]) (by norm_num [abs_of_pos]) (by norm_num)]
  rw [roundEven_down _ 8394234512797158 (by norm_num) (by norm_num)]
  norm_num

/-- The pair the doubles store on `phone` for the draw `drawR`. -/
theorem spawnPairRounded_phone : spawnPairRounded toDouble phone drawR = [upperR, lowerR] := by
  have hT : gapTopRounded toDouble phone drawR = 6233157398944716 / 2 ^ 46 := by
    simp only [gapTopRounded, phone, GAP_SIZE, drawR]
    rw [toDouble_650, toDouble_550, toDouble_product, toDouble_gapTop]
  simp only [spawnPairRounded, hT]
  simp only [phone, GAP_SIZE, PIPE_WIDTH, upperR, lowerR]
  rw [toDouble_upperY, toDouble_lowerY]

/-- Without rounding the pair is the one of `spawnPair`. -/
theorem spawnPairRounded_exact (d : Dims) (draw : ℚ) :
    spawnPairRounded (fun x => x) d draw = spawnPair d draw := rfl

/-- The sum `upper.y + upper.height + GAP_SIZE`, as the doubles evaluate it for the pair
of `drawR`. -/
theorem toDouble_relation :
    toDouble (toDouble (upperR.y + upperR.height) + GAP_SIZE) = 8394234512797160 / 2 ^ 45 := by
  have h1 : toDouble (upperR.y + upperR.height) = 779144674868090 / 2 ^ 43 := by
    simp only [upperR]
    rw [toDouble_eq _ 6 (by norm_num [abs_of_pos]) (by norm_num [abs_of_pos]) (by norm_num)]
    rw [roundEven_down _ 6233157398944720 (by norm_num) (by norm_num)]
    norm_num
  rw [h1]
  simp only [GAP_SIZE]
  rw [toDouble_eq _ 7 (by norm_num [abs_of_pos]) (by norm_num [abs_of_pos]) (by norm_num)]
  rw [roundEven_down _ 8394234512797160 (by norm_num) (by norm_num)]
  norm_num

/-- Both members of a pair with a common `x` are translated alike and retired together. -/
theorem sharedX_step (b : Bird) : ∀ ps : List Pipe, sharedX ps = true →
    sharedX ((ps.map (stepPipe b)).filter (fun p => !offScreen p)) = true
  | [], _ => rfl
  | [_], h => by simp [sharedX] at h
  | u :: l :: rest, h => by
    simp only [sharedX, Bool.and_eq_true, decide_eq_true_eq] at h
    obtain ⟨hx, hrest⟩ := h
    have ih := sharedX_step b rest hrest
    have hoff : offScreen (stepPipe b l) = offScreen (stepPipe b u) := by
      rw [offScreen_stepPipe, offScreen_stepPipe, hx]
    simp only [List.map_cons, List.filter_cons, hoff]
    cases hu : offScreen (stepPipe b u)
    · simp only [Bool.not_false, if_true, sharedX, Bool.and_eq_true, decide_eq_true_eq]
      exact ⟨by rw [stepPipe_x, stepPipe_x, hx], ih⟩
    · simpa using ih

theorem sharedX_physics (d : Dims) (s : State) (time : ℚ)
    (h : sharedX s.entities.pipes = true) :
    sharedX (physics d s s.entities time).1.pipes = true := by
  cases hr : s.running
  · rw [physics_stopped d s s.entities time hr]; exact h
  · rw [physics_pipes d s time hr]; exact sharedX_step _ _ h

/-- The frame delta is never read. -/
theorem advance_time (d : Dims) (t1 t2 : ℚ) (events : List GameEvent) (s : State) :
    advance d t1 events s = advance d t2 events s := rfl

/-- A tick of the mounted component lets the engine's bird fall, whatever the atom
holds. -/
theorem engineTick_bird (d : Dims) (time : ℚ) (events : List GameEvent) (m : Mounted)
    (hr : m.react.running = true) :
    (engineTick d time events m).engine.bird = fall m.engine.bird :=
  advance_bird d time events { m.react with entities := m.engine } hr

/-- After mount, start and one tick the game is running and nothing has collided. -/
theorem firstTick_react :
    (engineTick phone 16 [] (pressStart phone (mount phone))).react.running = true ∧
    (engineTick phone 16 [] (pressStart phone (mount phone))).react.gameOver = false := by
  have hr : ({ (pressStart phone (mount phone)).react with
      entities := (pressStart phone (mount phone)).engine } : State).running = true := rfl
  simp only [engineTick]
  rw [advance_running phone 16 [] _ hr]
  norm_num [collision, hitsBoundary, fall, pressStart, mount, startGame, commit,
    Update.apply, initialState, initialEntities, phone, GRAVITY, BIRD_HEIGHT]

/-- The jump of `mountedTrace` writes the impulse into the atom and leaves the engine's
bird as the first tick left it. -/
theorem mountedTrace_facts :
    mountedTrace.react.running = true ∧ mountedTrace.react.gameOver = false ∧
    mountedTrace.react.entities.bird.velocity = JUMP_FORCE ∧
    mountedTrace.engine.bird = fall (initialEntities phone).bird := by
  obtain ⟨h1, h2⟩ := firstTick_react
  have hj : ∀ s : State, s.running = true → s.gameOver = false →
      (jump phone s).running = true ∧ (jump phone s).gameOver = false ∧
      (jump phone s).entities.bird.velocity = JUMP_FORCE := by
    intro s hr hg
    simp [jump, hr, hg]
  obtain ⟨a, b, c⟩ := hj _ h1 h2
  refine ⟨a, b, c, ?_⟩
  exact engineTick_bird phone 16 [] (pressStart phone (mount phone)) rfl

/-! ## The claims -/

/-- C1 as stated fails: in `passState` one unscored pair at a common `x` goes from not
passed (`31 + 70 ≥ 100`) to passed (`28 + 70 < 100`) while the bird is inside its gap
`[300, 450]` before and after the step; the game stays Running and the score goes up by
2, not by 1. -/
theorem C1_counterexample :
    passState.running = true ∧
    passState.entities.pipes =
      [ { x := 31, y := 300 - phone.HEIGHT, width := 70, height := 800, scored := false },
        { x := 31, y := 300 + GAP_SIZE, width := 70, height := 800, scored := false } ] ∧
    ¬ ((31 : ℚ) + PIPE_WIDTH < passState.entities.bird.x) ∧
    (31 : ℚ) - PIPE_SPEED + PIPE_WIDTH < passState.entities.bird.x ∧
    (300 ≤ passState.entities.bird.y ∧
      passState.entities.bird.y + BIRD_HEIGHT ≤ 300 + GAP_SIZE) ∧
    (300 ≤ (advance phone 16 [] passState).entities.bird.y ∧
      (advance phone 16 [] passState).entities.bird.y + BIRD_HEIGHT ≤ 300 + GAP_SIZE) ∧
    (advance phone 16 [] passState).running = true ∧
    (advance phone 16 [] passState).score = passState.score + 2 ∧
    (advance phone 16 [] passState).score ≠ passState.score + 1 := by
  have hr : passState.running = true := rfl
  have hsc : (advance phone 16 [] passState).score = passState.score + 2 := by
    rw [advance_score phone 16 [] passState hr]
    norm_num [passState, passes, fall, List.countP_cons, PIPE_SPEED, PIPE_WIDTH]
  have hrun : (advance phone 16 [] passState).running = true := by
    rw [advance_running phone 16 [] passState hr]
    norm_num [collision, hitsBoundary, collides, passState, fall, phone, GRAVITY,
      BIRD_HEIGHT, BIRD_WIDTH, PIPE_SPEED, PIPE_WIDTH, GAP_SIZE]
  rw [advance_bird phone 16 [] passState hr, hsc]
  refine ⟨rfl, ?_, ?_, ?_, ?_, ?_, hrun, rfl, by omega⟩ <;>
    norm_num [passState, fall, phone, GRAVITY, BIRD_HEIGHT, PIPE_SPEED, PIPE_WIDTH, GAP_SIZE]

/-- C1 amended: the loop scores every pipe on its own. In a Running state whose pipe
list holds an unscored pair `u`, `l` at a common `x` that the step moves past the bird
(`x - PIPE_SPEED + PIPE_WIDTH < bird.x`), while no other pipe is newly passed, the score
goes up by exactly 2 over the step, one for each member. Both members are then marked
scored, so over any further sequence of ticks (no other unscored pipe, no spawn) the
pair has contributed exactly 2 in total. -/
theorem C1_pair_scores_two (d : Dims) (s : State) (time : ℚ) (events : List GameEvent)
    (u l : Pipe) (pre post : List Pipe)
    (hr : s.running = true)
    (hps : s.entities.pipes = pre ++ [u, l] ++ post)
    (hx : u.x = l.x) (hu : u.scored = false) (hl : l.scored = false)
    (hpass : u.x - PIPE_SPEED + PIPE_WIDTH < s.entities.bird.x)
    (hothers : ∀ p ∈ pre ++ post,
      p.scored = true ∨ ¬ (p.x - PIPE_SPEED + PIPE_WIDTH < s.entities.bird.x)) :
    (advance d time events s).score = s.score + 2 ∧
    ((∀ p ∈ pre ++ post, p.scored = true) →
      ∀ times : List ℚ, (run d (time :: times) s).score = s.score + 2) := by
  have hcu : passes (fall s.entities.bird) u = true := by
    simp [passes, fall_x, hpass, hu]
  have hcl : passes (fall s.entities.bird) l = true := by
    simp [passes, fall_x, ← hx, hpass, hl]
  have hco : ∀ p ∈ pre ++ post, passes (fall s.entities.bird) p = false := by
    intro p hp
    rcases hothers p hp with h | h
    · simp [passes, h]
    · simp [passes, fall_x, h]
  have hcount : s.entities.pipes.countP (passes (fall s.entities.bird)) = 2 := by
    have h0 : (pre ++ post).countP (passes (fall s.entities.bird)) = 0 := by
      rw [List.countP_eq_zero]
      intro p hp
      simp [hco p hp]
    rw [List.countP_append] at h0
    rw [hps, List.countP_append, List.countP_append]
    simp only [List.countP_cons, List.countP_nil, hcu, hcl, if_true]
    omega
  have hstep : ∀ evs, (advance d time evs s).score = s.score + 2 := by
    intro evs
    rw [advance_score d time evs s hr, hcount]
  refine ⟨hstep events, ?_⟩
  intro hsc times
  show (run d times (advance d time [] s)).score = s.score + 2
  rw [run_allScored d times, hstep []]
  intro p hp
  rw [advance_pipes d time s hr, List.mem_filter, List.mem_map] at hp
  obtain ⟨⟨p0, hp0, rfl⟩, _⟩ := hp
  rw [stepPipe_scored]
  rw [hps] at hp0
  simp only [List.mem_append, List.mem_cons, List.mem_singleton, List.not_mem_nil,
    or_false] at hp0
  rcases hp0 with (h | h | h) | h
  · simp [hsc p0 (List.mem_append_left _ h)]
  · simp [h, hcu]
  · simp [h, hcl]
  · simp [hsc p0 (List.mem_append_right _ h)]

theorem C1_pair_scores_two_witness :
    (passState.running = true ∧
      passState.entities.pipes =
        [] ++ [ ({ x := 31, y := -500, width := 70, height := 800, scored := false } : Pipe),
                { x := 31, y := 450, width := 70, height := 800, scored := false } ] ++ [] ∧
      (31 : ℚ) - PIPE_SPEED + PIPE_WIDTH < passState.entities.bird.x) ∧
    (advance phone 16 [] passState).score = passState.score + 2 ∧
    (run phone [16, 16, 16] passState).score = passState.score + 2 :=
  have hpass : (31 : ℚ) - PIPE_SPEED + PIPE_WIDTH < passState.entities.bird.x := by
    norm_num [passState, PIPE_SPEED, PIPE_WIDTH]
  have h := C1_pair_scores_two phone passState 16 []
    { x := 31, y := -500, width := 70, height := 800, scored := false }
    { x := 31, y := 450, width := 70, height := 800, scored := false } [] []
    rfl rfl rfl rfl rfl hpass (by simp)
  ⟨⟨rfl, rfl, hpass⟩, h.1, h.2 (by simp) [16, 16]⟩

/-- C2 fails on the code at `gapState`, a Running state of `Reachable phone` (start, one
`spawn-pipe` event, and jumps whose impulse reaches the stepped bird): its pair has the
gap `[300, 450]`; after the step the pair
overlaps the bird horizontally and the bird (`y = 318`, height 30) lies entirely inside
the gap, touching neither pipe's box; yet the test of lines 91-96 fires (it compares the
bird with `pipe.y` and `pipe.y + GAP_SIZE` of each single pipe), so `gameOverHandler`
runs and the phase becomes GameOver. -/
theorem C2_gap_collision :
    Reachable phone gapState ∧ gapState.running = true ∧
    (spawnPair phone (5 / 11)).map (fun p => { p with x := 142 }) = gapState.entities.pipes ∧
    (300 ≤ (advance phone 16 [] gapState).entities.bird.y ∧
      (advance phone 16 [] gapState).entities.bird.y + BIRD_HEIGHT ≤ 300 + GAP_SIZE) ∧
    (gapState.entities.bird.x + BIRD_WIDTH > 142 - PIPE_SPEED ∧
      gapState.entities.bird.x < 142 - PIPE_SPEED + PIPE_WIDTH) ∧
    (advance phone 16 [] gapState).running = false ∧
    (advance phone 16 [] gapState).gameOver = true := by
  have hreach : Reachable phone gapState := by
    have h := flightTrace_reachable
    rw [flightTrace_eq] at h
    exact h
  have hr : gapState.running = true := rfl
  have hc : collision phone gapState = true := by
    norm_num [collision, hitsBoundary, collides, gapState, hover, fall, phone, GRAVITY,
      BIRD_HEIGHT, BIRD_WIDTH, PIPE_SPEED, PIPE_WIDTH, GAP_SIZE]
  rw [advance_bird phone 16 [] gapState hr, advance_running phone 16 [] gapState hr, hc]
  refine ⟨hreach, rfl, ?_, ?_, ?_, rfl, rfl⟩ <;>
    norm_num [gapState, hover, spawnPair, fall, phone, GRAVITY, BIRD_HEIGHT, BIRD_WIDTH,
      PIPE_SPEED, PIPE_WIDTH, GAP_SIZE]

/-- C3 as stated fails: on the 30 points wide window, start, a tick with one
`spawn-pipe` event and one more tick reach a Running state with score 2 and high score
0; the pair spawned at `x = 30` is behind the bird after its first translation. -/
theorem C3_counterexample :
    Reachable narrow narrowTrace ∧ narrowTrace.running = true ∧
    narrowTrace.score = 2 ∧ narrowTrace.highScore = 0 ∧
    ¬ (narrowTrace.highScore ≥ narrowTrace.score) := by
  have hreach : Reachable narrow narrowTrace := by
    refine Reachable.advance 16 [] (Reachable.advance 16 _ (Reachable.start Reachable.init) ?_)
      ?_
    · intro r hr
      simp only [List.mem_singleton, GameEvent.spawnPipe.injEq] at hr
      subst hr
      norm_num
    · intro r hr
      simp at hr
  have h1 : (startGame narrow (initialState narrow)).running = true := rfl
  have e2 : advance narrow 16 [GameEvent.spawnPipe (1 / 2)]
      (startGame narrow (initialState narrow)) =
      { running := true, score := 0, gameOver := false, highScore := 0,
        entities :=
          { bird := { x := 100, y := 771 / 2, width := 40, height := 30, velocity := 1 / 2 },
            pipes := [ { x := 30, y := -475, width := 70, height := 800, scored := false },
                       { x := 30, y := 475, width := 70, height := 800, scored := false } ],
            scoreValue := 0 } } := by
    rw [advance_running narrow 16 _ _ h1, pipeSpawning_running narrow _ _ _ h1,
      physics_running narrow _ _ 16 h1]
    norm_num [collision, hitsBoundary, collides, passes, fall, startGame, commit,
      Update.apply, initialState, initialEntities, spawned, spawnPair, narrow, GRAVITY,
      BIRD_HEIGHT, BIRD_WIDTH, PIPE_SPEED, PIPE_WIDTH, GAP_SIZE]
  have e3 : narrowTrace.running = true ∧ narrowTrace.score = 2 ∧ narrowTrace.highScore = 0 := by
    unfold narrowTrace
    rw [e2, advance_running narrow 16 _ _ rfl]
    norm_num [collision, hitsBoundary, collides, passes, fall, narrow, GRAVITY,
      BIRD_HEIGHT, BIRD_WIDTH, PIPE_SPEED, PIPE_WIDTH, GAP_SIZE, List.countP_cons]
  refine ⟨hreach, e3.1, e3.2.1, e3.2.2, ?_⟩
  rw [e3.2.1, e3.2.2]
  decide

/-- C3 amended: the high score is kept by `startGame`, `resetGame` and `jump`, never
decreases over a tick, changes only in a tick that ends the run, and after such a tick
is at least the score held when the tick began. While Running the score may exceed it:
`highScore ≥ score` is not maintained between collisions. -/
theorem C3_highScore_catches_up (d : Dims) (s : State) (time : ℚ)
    (events : List GameEvent) :
    (startGame d s).highScore = s.highScore ∧
    (resetGame d s).highScore = s.highScore ∧
    (jump d s).highScore = s.highScore ∧
    s.highScore ≤ (advance d time events s).highScore ∧
    ((advance d time events s).running = s.running →
      (advance d time events s).highScore = s.highScore) ∧
    (s.running = true → (advance d time events s).running = false →
      s.score ≤ (advance d time events s).highScore) := by
  refine ⟨rfl, rfl, jump_highScore d s, ?_, ?_, ?_⟩
  · rw [advance_highScore]
    split <;> omega
  · intro h
    cases hr : s.running
    · rw [advance_stopped d time events s hr]
    · rw [advance_running d time events s hr] at h ⊢
      simp only [hr, Bool.not_eq_true'] at h
      simp [h]
  · intro hr h
    rw [advance_running d time events s hr] at h ⊢
    simp only [Bool.not_eq_false'] at h
    simp only [h, true_and]
    split <;> omega

theorem C3_highScore_catches_up_witness :
    (crashState.running = true ∧ (advance phone 16 [] crashState).running = false) ∧
    crashState.score ≤ (advance phone 16 [] crashState).highScore :=
  have hc : (advance phone 16 [] crashState).running = false := by
    rw [advance_running phone 16 [] crashState rfl]
    norm_num [collision, hitsBoundary, crashState, fall, phone, GRAVITY, BIRD_HEIGHT]
  ⟨⟨rfl, hc⟩, (C3_highScore_catches_up phone crashState 16 []).2.2.2.2.2 rfl hc⟩

/-- C4 as stated fails: in `crashState` (score 3, high score 1) the step detects the
boundary collision and also scores the pair that passes; the resulting state is GameOver
with score 5 and high score 3, not `max 1 5`: `gameOverHandler` reads the score its
closure was rendered with, without the increments queued in the same step. -/
theorem C4_counterexample :
    crashState.running = true ∧ crashState.highScore = 1 ∧
    (advance phone 16 [] crashState).running = false ∧
    (advance phone 16 [] crashState).gameOver = true ∧
    (advance phone 16 [] crashState).score = 5 ∧
    (advance phone 16 [] crashState).highScore = 3 ∧
    (advance phone 16 [] crashState).highScore ≠
      max crashState.highScore (advance phone 16 [] crashState).score := by
  have hc : collision phone crashState = true := by
    norm_num [collision, hitsBoundary, crashState, fall, phone, GRAVITY, BIRD_HEIGHT]
  have hn : crashState.entities.pipes.countP (passes (fall crashState.entities.bird)) = 2 := by
    norm_num [crashState, passes, fall, List.countP_cons, PIPE_SPEED, PIPE_WIDTH]
  rw [advance_running phone 16 [] crashState rfl, hc, hn]
  refine ⟨rfl, rfl, rfl, rfl, rfl, ?_, ?_⟩ <;> simp [crashState]

/-- C4 amended: when a tick of a Running state with high score `h` detects a collision
and the phase becomes GameOver, the resulting high score is `max h s0`, where `s0` is
the score held when the tick began (increments made in the same tick are not counted);
a tick that does not end the run, `startGame`, `resetGame` and `jump` leave the high
score unchanged. -/
theorem C4_highScore_at_gameOver (d : Dims) (s : State) (time : ℚ)
    (events : List GameEvent) :
    (s.running = true → (advance d time events s).running = false →
      (advance d time events s).gameOver = true ∧
      (advance d time events s).highScore = max s.highScore s.score) ∧
    ((advance d time events s).running = s.running →
      (advance d time events s).highScore = s.highScore) ∧
    (startGame d s).highScore = s.highScore ∧
    (resetGame d s).highScore = s.highScore ∧
    (jump d s).highScore = s.highScore := by
  refine ⟨?_, ?_, rfl, rfl, jump_highScore d s⟩
  · intro hr h
    rw [advance_running d time events s hr] at h ⊢
    simp only [Bool.not_eq_false'] at h
    simp only [h, true_and, Bool.true_or]
    split
    · rw [max_eq_right (by omega)]
    · rw [max_eq_left (by omega)]
  · intro h
    cases hr : s.running
    · rw [advance_stopped d time events s hr]
    · rw [advance_running d time events s hr] at h ⊢
      simp only [hr, Bool.not_eq_true'] at h
      simp [h]

theorem C4_highScore_at_gameOver_witness :
    (crashState.running = true ∧ (advance phone 16 [] crashState).running = false) ∧
    (advance phone 16 [] crashState).gameOver = true ∧
    (advance phone 16 [] crashState).highScore = max crashState.highScore crashState.score :=
  have hc : (advance phone 16 [] crashState).running = false := by
    rw [advance_running phone 16 [] crashState rfl]
    norm_num [collision, hitsBoundary, crashState, fall, phone, GRAVITY, BIRD_HEIGHT]
  ⟨⟨rfl, hc⟩, (C4_highScore_at_gameOver phone crashState 16 []).1 rfl hc⟩

/-- C5: once the phase is GameOver (`running = false`, `gameOver = true`) an engine tick,
whatever its delta and events, returns the state unchanged; neither system does anything
and no setter call (hence no `gameOverHandler`) is made. -/
theorem C5_advance_after_gameOver (d : Dims) (s : State) (time : ℚ)
    (events : List GameEvent) (hr : s.running = false) (hg : s.gameOver = true) :
    advance d time events s = s ∧
    physics d s s.entities time = (s.entities, []) ∧
    pipeSpawning d s s.entities events = s.entities := by
  refine ⟨advance_stopped d time events s hr, physics_stopped d s s.entities time hr, ?_⟩
  simp [pipeSpawning, hr]

theorem C5_advance_after_gameOver_witness :
    (finishedState.running = false ∧ finishedState.gameOver = true) ∧
    advance phone 16 [GameEvent.spawnPipe (1 / 2), GameEvent.other] finishedState
      = finishedState ∧
    physics phone finishedState finishedState.entities 16 = (finishedState.entities, []) ∧
    pipeSpawning phone finishedState finishedState.entities
      [GameEvent.spawnPipe (1 / 2), GameEvent.other] = finishedState.entities :=
  ⟨⟨rfl, rfl⟩,
   C5_advance_after_gameOver phone finishedState 16
     [GameEvent.spawnPipe (1 / 2), GameEvent.other] rfl rfl⟩

/-- C6 as stated fails: for the draw `drawR` on `phone` the doubles store
`upper.y = fl(T - 800)`, about -711.4215057866102, and `lower.y = fl(T + 150)`, about
238.57849421338977, each rounded on its own from the gap top `T`; the stored values
differ from the relation by `2 ^ (-44)`, and `upper.y + upper.height + GAP_SIZE`
evaluated in doubles is 238.57849421338983, not `lower.y`. -/
theorem C6_counterexample :
    (0 ≤ drawR ∧ drawR < 1 ∧ toDouble drawR = drawR) ∧
    spawnPairRounded toDouble phone drawR = [upperR, lowerR] ∧
    upperR.x = lowerR.x ∧
    lowerR.y ≠ upperR.y + upperR.height + GAP_SIZE ∧
    upperR.y + upperR.height + GAP_SIZE - lowerR.y = 1 / 2 ^ 44 ∧
    toDouble (toDouble (upperR.y + upperR.height) + GAP_SIZE) ≠ lowerR.y := by
  refine ⟨⟨by norm_num [drawR], by norm_num [drawR], toDouble_drawR⟩,
    spawnPairRounded_phone, rfl, ?_, ?_, ?_⟩
  · norm_num [upperR, lowerR, GAP_SIZE]
  · norm_num [upperR, lowerR, GAP_SIZE]
  · rw [toDouble_relation]
    norm_num [lowerR]

/-- C6 amended: whatever the rounding `fl` of the arithmetic, the two pipes pushed for a
`spawn-pipe` event share `x = WIDTH` and the height `HEIGHT`, with
`upper.y = fl(T - HEIGHT)` and `lower.y = fl(T + GAP_SIZE)` rounded separately from one
gap top `T`; `lower.y = upper.y + upper.height + GAP_SIZE` holds at creation when these
two results are exact, as they all are without rounding. A `physics` step translates and
retires both members of a pair together and changes nothing of a pipe but its `x` (and
`scored`): the common `x` is preserved, and so is the relation where it held. -/
theorem C6_pair_rounded (fl : ℚ → ℚ) (d : Dims) (draw : ℚ) :
    (∃ u l : Pipe, spawnPairRounded fl d draw = [u, l] ∧
      u.x = d.WIDTH ∧ l.x = d.WIDTH ∧ u.height = d.HEIGHT ∧ l.height = d.HEIGHT ∧
      u.y = fl (gapTopRounded fl d draw - d.HEIGHT) ∧
      l.y = fl (gapTopRounded fl d draw + GAP_SIZE) ∧
      (fl (gapTopRounded fl d draw - d.HEIGHT) = gapTopRounded fl d draw - d.HEIGHT →
        fl (gapTopRounded fl d draw + GAP_SIZE) = gapTopRounded fl d draw + GAP_SIZE →
        l.y = u.y + u.height + GAP_SIZE)) ∧
    paired (spawnPairRounded (fun x => x) d draw) = true ∧
    (∀ (s : State) (time : ℚ), sharedX s.entities.pipes = true →
      sharedX (physics d s s.entities time).1.pipes = true) ∧
    (∀ (s : State) (time : ℚ), paired s.entities.pipes = true →
      paired (physics d s s.entities time).1.pipes = true) ∧
    (∀ (s : State) (time : ℚ), s.running = true →
      ∀ q ∈ (physics d s s.entities time).1.pipes, ∃ p ∈ s.entities.pipes,
        q.x = p.x - PIPE_SPEED ∧ q.y = p.y ∧ q.width = p.width ∧ q.height = p.height) := by
  refine ⟨⟨_, _, rfl, rfl, rfl, rfl, rfl, rfl, rfl, ?_⟩, ?_,
    fun s time h => sharedX_physics d s time h,
    fun s time h => paired_physics d s time h, ?_⟩
  · intro h1 h2
    simp only [h1, h2]
    ring
  · rw [spawnPairRounded_exact]
    exact paired_spawnPair d draw
  · intro s time hr q hq
    rw [physics_pipes d s time hr, List.mem_filter, List.mem_map] at hq
    obtain ⟨⟨p, hp, rfl⟩, _⟩ := hq
    exact ⟨p, hp, stepPipe_x _ p, stepPipe_y _ p, stepPipe_width _ p, stepPipe_height _ p⟩

theorem C6_pair_rounded_witness :
    (sharedX roundedState.entities.pipes = true ∧
      paired retireState.entities.pipes = true) ∧
    (∃ u l : Pipe, spawnPairRounded toDouble phone drawR = [u, l] ∧
      u.x = phone.WIDTH ∧ l.x = phone.WIDTH ∧
      u.height = phone.HEIGHT ∧ l.height = phone.HEIGHT ∧
      u.y = toDouble (gapTopRounded toDouble phone drawR - phone.HEIGHT) ∧
      l.y = toDouble (gapTopRounded toDouble phone drawR + GAP_SIZE) ∧
      (toDouble (gapTopRounded toDouble phone drawR - phone.HEIGHT) =
          gapTopRounded toDouble phone drawR - phone.HEIGHT →
        toDouble (gapTopRounded toDouble phone drawR + GAP_SIZE) =
          gapTopRounded toDouble phone drawR + GAP_SIZE →
        l.y = u.y + u.height + GAP_SIZE)) ∧
    sharedX (physics phone roundedState roundedState.entities 16).1.pipes = true ∧
    paired (physics phone retireState retireState.entities 16).1.pipes = true :=
  have hs : sharedX roundedState.entities.pipes = true := rfl
  have hp : paired retireState.entities.pipes = true := by
    norm_num [paired, retireState, GAP_SIZE]
  ⟨⟨hs, hp⟩, (C6_pair_rounded toDouble phone drawR).1,
   (C6_pair_rounded toDouble phone drawR).2.2.1 roundedState 16 hs,
   (C6_pair_rounded toDouble phone drawR).2.2.2.1 retireState 16 hp⟩

/-- C7: the pipe sequence returned by one `physics` step on a Running state is the input
sequence with every pipe translated left by `PIPE_SPEED` exactly once (its `y` and size
untouched), from which exactly the pipes with `x + PIPE_WIDTH < 0` are removed, the
others keeping their relative order; no pipe with `x + PIPE_WIDTH < 0` remains. -/
theorem C7_translate_then_retire (d : Dims) (s : State) (time : ℚ)
    (hr : s.running = true) :
    (physics d s s.entities time).1.pipes.map (fun p => (p.x, p.y, p.width, p.height)) =
      (s.entities.pipes.map (fun p => (p.x - PIPE_SPEED, p.y, p.width, p.height))).filter
        (fun g => !decide (g.1 + PIPE_WIDTH < 0)) ∧
    (∀ p ∈ (physics d s s.entities time).1.pipes, ¬ (p.x + PIPE_WIDTH < 0)) ∧
    (physics d s s.entities time).1.pipes.length =
      s.entities.pipes.countP (fun p => !decide (p.x - PIPE_SPEED + PIPE_WIDTH < 0)) := by
  rw [physics_pipes d s time hr]
  generalize fall s.entities.bird = b
  refine ⟨?_, ?_, ?_⟩
  · induction s.entities.pipes with
    | nil => rfl
    | cons p ps ih =>
      simp only [List.map_cons, List.filter_cons, offScreen_stepPipe]
      by_cases h : p.x - PIPE_SPEED + PIPE_WIDTH < 0
      · simpa [h] using ih
      · simp [h, ih, stepPipe_x, stepPipe_y, stepPipe_width, stepPipe_height]
  · intro p hp
    rw [List.mem_filter, List.mem_map] at hp
    obtain ⟨⟨p0, _, rfl⟩, hoff⟩ := hp
    rw [offScreen_stepPipe] at hoff
    rw [stepPipe_x]
    simpa using hoff
  · induction s.entities.pipes with
    | nil => rfl
    | cons p ps ih =>
      simp only [List.map_cons, List.filter_cons, offScreen_stepPipe, List.countP_cons]
      by_cases h : p.x - PIPE_SPEED + PIPE_WIDTH < 0
      · simpa [h] using ih
      · simp [h, ih]

theorem C7_translate_then_retire_witness :
    retireState.running = true ∧
    (physics phone retireState retireState.entities 16).1.pipes.map
        (fun p => (p.x, p.y, p.width, p.height)) =
      (retireState.entities.pipes.map
        (fun p => (p.x - PIPE_SPEED, p.y, p.width, p.height))).filter
        (fun g => !decide (g.1 + PIPE_WIDTH < 0)) ∧
    (physics phone retireState retireState.entities 16).1.pipes.length =
      retireState.entities.pipes.countP
        (fun p => !decide (p.x - PIPE_SPEED + PIPE_WIDTH < 0)) :=
  ⟨rfl, (C7_translate_then_retire phone retireState 16 rfl).1,
   (C7_translate_then_retire phone retireState 16 rfl).2.2⟩

/-- C8 as stated fails: on `phone`, after mount, start and one tick the game is
Running with the engine's bird at velocity 0.5 and height 385.5. `jump` then writes
`JUMP_FORCE` into the `entities` atom, and the tick with `dt = 0.1` steps the engine's
bird to velocity 1 and height 386.5: not `JUMP_FORCE + GRAVITY * 0.1 = -9.95`, and not
`y_old + velocity_new * 0.1`. -/
theorem C8_counterexample :
    mountedTrace.react.running = true ∧ mountedTrace.react.gameOver = false ∧
    (0 : ℚ) < 1 / 10 ∧
    mountedTrace.react.entities.bird.velocity = JUMP_FORCE ∧
    mountedTrace.engine.bird.velocity = 1 / 2 ∧
    mountedTrace.engine.bird.y = 771 / 2 ∧
    (engineTick phone (1 / 10) [] mountedTrace).engine.bird.velocity = 1 ∧
    (engineTick phone (1 / 10) [] mountedTrace).engine.bird.velocity ≠
      JUMP_FORCE + GRAVITY * (1 / 10) ∧
    (engineTick phone (1 / 10) [] mountedTrace).engine.bird.y = 773 / 2 ∧
    (engineTick phone (1 / 10) [] mountedTrace).engine.bird.y ≠
      mountedTrace.engine.bird.y +
        (engineTick phone (1 / 10) [] mountedTrace).engine.bird.velocity * (1 / 10) := by
  obtain ⟨hr, hg, hv, he⟩ := mountedTrace_facts
  rw [engineTick_bird phone (1 / 10) [] mountedTrace hr, he]
  refine ⟨hr, hg, by norm_num, hv, ?_, ?_, ?_, ?_, ?_, ?_⟩ <;>
    norm_num [fall, initialEntities, phone, JUMP_FORCE, GRAVITY, BIRD_HEIGHT]

/-- C8 amended: for every Running state and every frame delta `dt`, after `jump` or not,
one tick leaves the stepped bird with `velocity_new = velocity_old + GRAVITY` and
`y_new = y_old + velocity_new`: velocity is integrated before position and neither is
scaled by `dt`, which the step never reads (two deltas give the same state). From
`velocity_old = JUMP_FORCE` the tick gives `JUMP_FORCE + GRAVITY`, whatever `dt`. -/
theorem C8_step_ignores_dt (d : Dims) (s : State) (dt dt2 : ℚ) (events : List GameEvent)
    (hr : s.running = true) :
    (advance d dt events s).entities.bird.velocity = s.entities.bird.velocity + GRAVITY ∧
    (advance d dt events s).entities.bird.y =
      s.entities.bird.y + (advance d dt events s).entities.bird.velocity ∧
    advance d dt events s = advance d dt2 events s ∧
    (s.entities.bird.velocity = JUMP_FORCE →
      (advance d dt events s).entities.bird.velocity = JUMP_FORCE + GRAVITY) := by
  rw [advance_bird d dt events s hr]
  refine ⟨rfl, rfl, advance_time d dt dt2 events s, ?_⟩
  intro h
  simp [fall, h]

theorem C8_step_ignores_dt_witness :
    (impulseState.running = true ∧ impulseState.entities.bird.velocity = JUMP_FORCE) ∧
    (advance phone (1 / 10) [] impulseState).entities.bird.velocity =
      JUMP_FORCE + GRAVITY ∧
    advance phone (1 / 10) [] impulseState = advance phone 16 [] impulseState :=
  have hv : impulseState.entities.bird.velocity = JUMP_FORCE := by
    norm_num [impulseState, hover, JUMP_FORCE]
  ⟨⟨rfl, hv⟩, (C8_step_ignores_dt phone impulseState (1 / 10) 16 [] rfl).2.2.2 hv,
   (C8_step_ignores_dt phone impulseState (1 / 10) 16 [] rfl).2.2.1⟩

/-- C9: in a Running state, let `y1` be the bird's height after the integration of the
step. If `y1 ≥ HEIGHT - BIRD_HEIGHT` (exact contact included) or `y1 ≤ 0`, the step
calls `gameOverHandler` first thing and the phase becomes GameOver; if neither holds and
no pipe satisfies the collision test, the phase stays Running. -/
theorem C9_boundary_collision (d : Dims) (s : State) (time : ℚ) (events : List GameEvent)
    (hr : s.running = true) (hg : s.gameOver = false) (y1 : ℚ)
    (hy : y1 = s.entities.bird.y + (s.entities.bird.velocity + GRAVITY)) :
    (advance d time events s).entities.bird.y = y1 ∧
    ((y1 ≥ d.HEIGHT - BIRD_HEIGHT ∨ y1 ≤ 0) →
      (∃ rest, (physics d s s.entities time).2 = gameOverHandler s ++ rest) ∧
      (advance d time events s).running = false ∧
      (advance d time events s).gameOver = true) ∧
    (¬ (y1 ≥ d.HEIGHT - BIRD_HEIGHT ∨ y1 ≤ 0) →
      (∀ p ∈ s.entities.pipes,
        ¬ (s.entities.bird.x + BIRD_WIDTH > p.x - PIPE_SPEED ∧
           s.entities.bird.x < p.x - PIPE_SPEED + PIPE_WIDTH ∧
           (y1 < p.y ∨ y1 + BIRD_HEIGHT > p.y + GAP_SIZE))) →
      (advance d time events s).running = true ∧
      (advance d time events s).gameOver = false) := by
  subst hy
  refine ⟨by rw [advance_bird d time events s hr]; rfl, ?_, ?_⟩
  · intro hb
    have hB : hitsBoundary d (fall s.entities.bird) = true := by
      simpa [hitsBoundary, fall] using hb
    refine ⟨⟨_, by rw [physics_running d s s.entities time hr, hB]; rfl⟩, ?_, ?_⟩ <;>
      simp [advance_running d time events s hr, collision, hB]
  · intro hb hp
    have hB : hitsBoundary d (fall s.entities.bird) = false := by
      simpa [hitsBoundary, fall] using hb
    have hA : s.entities.pipes.any (collides (fall s.entities.bird)) = false := by
      rw [List.any_eq_false]
      intro p hmem
      have := hp p hmem
      simpa [collides, fall] using this
    simp [advance_running d time events s hr, collision, hB, hA, hg]

theorem C9_boundary_collision_witness :
    (bottomContactState.running = true ∧ bottomContactState.gameOver = false ∧
      (770 : ℚ) = bottomContactState.entities.bird.y +
        (bottomContactState.entities.bird.velocity + GRAVITY) ∧
      ((770 : ℚ) ≥ phone.HEIGHT - BIRD_HEIGHT ∨ (770 : ℚ) ≤ 0)) ∧
    (advance phone 16 [] bottomContactState).running = false ∧
    (advance phone 16 [] bottomContactState).gameOver = true :=
  have hy : (770 : ℚ) = bottomContactState.entities.bird.y +
      (bottomContactState.entities.bird.velocity + GRAVITY) := by
    norm_num [bottomContactState, GRAVITY]
  have hb : (770 : ℚ) ≥ phone.HEIGHT - BIRD_HEIGHT ∨ (770 : ℚ) ≤ 0 := by
    norm_num [phone, BIRD_HEIGHT]
  ⟨⟨rfl, rfl, hy, hb⟩,
   ((C9_boundary_collision phone bottomContactState 16 [] rfl rfl 770 hy).2.1 hb).2⟩

/-- C10: `jump` in a Running state sets the bird's velocity to the negative constant
`JUMP_FORCE` and changes nothing else; in Idle it equals `startGame`, in GameOver it
equals `resetGame`, and in both the resulting velocity is 0, not the impulse. -/
theorem C10_jump (d : Dims) (s : State) :
    JUMP_FORCE < 0 ∧
    (s.running = true → s.gameOver = false →
      (jump d s).entities.bird.velocity = JUMP_FORCE ∧
      (jump d s).entities.bird.x = s.entities.bird.x ∧
      (jump d s).entities.bird.y = s.entities.bird.y ∧
      (jump d s).entities.bird.width = s.entities.bird.width ∧
      (jump d s).entities.bird.height = s.entities.bird.height ∧
      (jump d s).entities.pipes = s.entities.pipes ∧
      (jump d s).entities.scoreValue = s.entities.scoreValue ∧
      (jump d s).score = s.score ∧
      (jump d s).highScore = s.highScore ∧
      (jump d s).running = true ∧
      (jump d s).gameOver = false) ∧
    (s.running = false → s.gameOver = false →
      jump d s = startGame d s ∧ (jump d s).entities.bird.velocity = 0 ∧
      (jump d s).entities.bird.velocity ≠ JUMP_FORCE) ∧
    (s.running = false → s.gameOver = true →
      jump d s = resetGame d s ∧ (jump d s).entities.bird.velocity = 0 ∧
      (jump d s).entities.bird.velocity ≠ JUMP_FORCE) := by
  refine ⟨by norm_num [JUMP_FORCE], ?_, ?_, ?_⟩
  · intro hr hg
    simp [jump, hr, hg]
  · intro hr hg
    simp [jump, hr, hg, startGame, commit, Update.apply, initialEntities, JUMP_FORCE]
  · intro hr hg
    simp [jump, hr, hg, resetGame, startGame, commit, Update.apply, initialEntities,
      JUMP_FORCE]

theorem C10_jump_witness :
    (runningState.running = true ∧ runningState.gameOver = false ∧
      (initialState phone).running = false ∧ (initialState phone).gameOver = false ∧
      finishedState.running = false ∧ finishedState.gameOver = true) ∧
    (jump phone runningState).entities.bird.velocity = JUMP_FORCE ∧
    jump phone (initialState phone) = startGame phone (initialState phone) ∧
    jump phone finishedState = resetGame phone finishedState :=
  ⟨⟨rfl, rfl, rfl, rfl, rfl, rfl⟩,
   ((C10_jump phone runningState).2.1 rfl rfl).1,
   ((C10_jump phone (initialState phone)).2.2.1 rfl rfl).1,
   ((C10_jump phone finishedState).2.2.2 rfl rfl).1⟩

/-- C11: for every state `startGame` and `resetGame` give the same state: `running`
true, `gameOver` false, score 0, no pipes, the bird at `x = 100`,
`y = HEIGHT / 2 - BIRD_HEIGHT / 2` with velocity 0; the high score is kept. -/
theorem C11_start_reset (d : Dims) (s : State) :
    resetGame d s = startGame d s ∧
    (startGame d s).running = true ∧
    (startGame d s).gameOver = false ∧
    (startGame d s).score = 0 ∧
    (startGame d s).entities.pipes = [] ∧
    (startGame d s).entities.bird.x = 100 ∧
    (startGame d s).entities.bird.y = d.HEIGHT / 2 - BIRD_HEIGHT / 2 ∧
    (startGame d s).entities.bird.velocity = 0 ∧
    (startGame d s).highScore = s.highScore :=
  ⟨rfl, rfl, rfl, rfl, rfl, rfl, rfl, rfl, rfl⟩

/-- C12: for every draw `r` in `[0, 1)` and every window with
`HEIGHT ≥ GAP_SIZE + 100`, the gap top `r * (HEIGHT - GAP_SIZE - 100) + 50` of the pushed
pair (the bottom edge `u.y + u.height` of its upper pipe) lies in
`[50, HEIGHT - GAP_SIZE - 50]` and the gap bottom `l.y` is at most `HEIGHT - 50`; while
the closure sees `running = true`, every `spawn-pipe` event appends exactly one pair at
the end of the pipe list, at `x = WIDTH`, and the pipes already there are unchanged. -/
theorem C12_spawn_range (d : Dims) (c : State) (e : Entities) (r : ℚ)
    (events : List GameEvent) (hr0 : 0 ≤ r) (hr1 : r < 1)
    (hH : d.HEIGHT ≥ GAP_SIZE + 100) (hc : c.running = true) :
    (∃ u l : Pipe,
      (pipeSpawning d c e [GameEvent.spawnPipe r]).pipes = e.pipes ++ [u, l] ∧
      u.x = d.WIDTH ∧ l.x = d.WIDTH ∧
      u.y + u.height = r * (d.HEIGHT - GAP_SIZE - 100) + 50 ∧
      50 ≤ u.y + u.height ∧ u.y + u.height ≤ d.HEIGHT - GAP_SIZE - 50 ∧
      l.y = u.y + u.height + GAP_SIZE ∧ l.y ≤ d.HEIGHT - 50) ∧
    (pipeSpawning d c e events).pipes.take e.pipes.length = e.pipes ∧
    (pipeSpawning d c e events).pipes.length =
      e.pipes.length + 2 * events.countP isSpawn ∧
    (∀ p ∈ (pipeSpawning d c e events).pipes.drop e.pipes.length, p.x = d.WIDTH) := by
  have hpos : 0 ≤ d.HEIGHT - GAP_SIZE - 100 := by linarith
  have h1 : 0 ≤ r * (d.HEIGHT - GAP_SIZE - 100) := mul_nonneg hr0 hpos
  have h2 : r * (d.HEIGHT - GAP_SIZE - 100) ≤ d.HEIGHT - GAP_SIZE - 100 :=
    mul_le_of_le_one_left hpos (le_of_lt hr1)
  refine ⟨⟨{ x := d.WIDTH, y := r * (d.HEIGHT - GAP_SIZE - 100) + 50 - d.HEIGHT,
             width := PIPE_WIDTH, height := d.HEIGHT, scored := false },
           { x := d.WIDTH, y := r * (d.HEIGHT - GAP_SIZE - 100) + 50 + GAP_SIZE,
             width := PIPE_WIDTH, height := d.HEIGHT, scored := false },
           ?_, rfl, rfl, ?_, ?_, ?_, ?_, ?_⟩, ?_, ?_, ?_⟩
  · rw [pipeSpawning_running d c e _ hc]
    simp only [List.flatMap_cons, List.flatMap_nil, List.append_nil, spawned, spawnPair]
  · simp only []; ring
  · simp only []; linarith
  · simp only []; linarith
  · simp only []; ring
  · simp only []; linarith
  · rw [pipeSpawning_running d c e events hc]
    simp
  · rw [pipeSpawning_running d c e events hc]
    simp only [List.length_append, spawned_length]
  · rw [pipeSpawning_running d c e events hc]
    intro p hp
    simp only [List.drop_left] at hp
    exact spawned_x d events p hp

theorem C12_spawn_range_witness :
    ((0 : ℚ) ≤ 1 / 2 ∧ (1 / 2 : ℚ) < 1 ∧ phone.HEIGHT ≥ GAP_SIZE + 100 ∧
      runningState.running = true) ∧
    (pipeSpawning phone runningState retireState.entities
      [GameEvent.spawnPipe (1 / 2), GameEvent.other]).pipes.take
        retireState.entities.pipes.length = retireState.entities.pipes ∧
    (pipeSpawning phone runningState retireState.entities
      [GameEvent.spawnPipe (1 / 2), GameEvent.other]).pipes.length =
        retireState.entities.pipes.length +
          2 * [GameEvent.spawnPipe (1 / 2), GameEvent.other].countP isSpawn :=
  have h0 : (0 : ℚ) ≤ 1 / 2 := by norm_num
  have h1 : (1 / 2 : ℚ) < 1 := by norm_num
  have hH : phone.HEIGHT ≥ GAP_SIZE + 100 := by norm_num [phone, GAP_SIZE]
  have h := C12_spawn_range phone runningState retireState.entities (1 / 2)
    [GameEvent.spawnPipe (1 / 2), GameEvent.other] h0 h1 hH rfl
  ⟨⟨h0, h1, hH, rfl⟩, h.2.1, h.2.2.1⟩

/-- C13 as stated fails: on a window 200 points high (`200 < GAP_SIZE + 100`) the
spawner signals nothing and pushes a pair as usual; for the draw `1/2` its gap top is
25, outside `[50, HEIGHT - GAP_SIZE - 50]`. -/
theorem C13_counterexample :
    shortWindow.HEIGHT < GAP_SIZE + 100 ∧ runningState.running = true ∧
    (pipeSpawning shortWindow runningState (initialEntities shortWindow)
      [GameEvent.spawnPipe (1 / 2)]).pipes = shortPair ∧
    shortPair.length = 2 ∧
    shortPair.map (fun p => p.y + p.height) = [25, 375] ∧
    ¬ ((50 : ℚ) ≤ 25 ∧ (25 : ℚ) ≤ shortWindow.HEIGHT - GAP_SIZE - 50) := by
  refine ⟨by norm_num [shortWindow, GAP_SIZE], rfl, ?_, rfl, ?_, ?_⟩
  · rw [pipeSpawning_running shortWindow runningState _ _ rfl]
    norm_num [spawned, spawnPair, shortPair, shortWindow, initialEntities, GAP_SIZE,
      PIPE_WIDTH]
  · norm_num [shortPair]
  · norm_num

/-- C13 amended: the code has no configuration check. For every window with
`HEIGHT < GAP_SIZE + 100` and every draw `r` in `[0, 1)`, a `spawn-pipe` event handled
while running still appends one pair, made by the same formula; its gap top
`r * (HEIGHT - GAP_SIZE - 100) + 50` lies in `(HEIGHT - GAP_SIZE - 50, 50]`, hence
outside the (empty) interval `[50, HEIGHT - GAP_SIZE - 50]`. -/
theorem C13_short_window_spawns (d : Dims) (c : State) (e : Entities) (r : ℚ)
    (hr0 : 0 ≤ r) (hr1 : r < 1) (hH : d.HEIGHT < GAP_SIZE + 100)
    (hc : c.running = true) :
    ∃ u l : Pipe,
      (pipeSpawning d c e [GameEvent.spawnPipe r]).pipes = e.pipes ++ [u, l] ∧
      u.y + u.height = r * (d.HEIGHT - GAP_SIZE - 100) + 50 ∧
      l.y = u.y + u.height + GAP_SIZE ∧
      d.HEIGHT - GAP_SIZE - 50 < u.y + u.height ∧ u.y + u.height ≤ 50 ∧
      ¬ (50 ≤ u.y + u.height ∧ u.y + u.height ≤ d.HEIGHT - GAP_SIZE - 50) := by
  have hneg : d.HEIGHT - GAP_SIZE - 100 < 0 := by linarith
  have h1 : r * (d.HEIGHT - GAP_SIZE - 100) ≤ 0 :=
    mul_nonpos_of_nonneg_of_nonpos hr0 (le_of_lt hneg)
  have h2 : d.HEIGHT - GAP_SIZE - 100 < r * (d.HEIGHT - GAP_SIZE - 100) := by
    have : 0 < (1 - r) * -(d.HEIGHT - GAP_SIZE - 100) :=
      mul_pos (by linarith) (by linarith)
    linarith
  refine ⟨{ x := d.WIDTH, y := r * (d.HEIGHT - GAP_SIZE - 100) + 50 - d.HEIGHT,
            width := PIPE_WIDTH, height := d.HEIGHT, scored := false },
          { x := d.WIDTH, y := r * (d.HEIGHT - GAP_SIZE - 100) + 50 + GAP_SIZE,
            width := PIPE_WIDTH, height := d.HEIGHT, scored := false },
          ?_, ?_, ?_, ?_, ?_, ?_⟩
  · rw [pipeSpawning_running d c e _ hc]
    simp only [List.flatMap_cons, List.flatMap_nil, List.append_nil, spawned, spawnPair]
  · simp only []; ring
  · simp only []; ring
  · simp only []; linarith
  · simp only []; linarith
  · simp only []
    intro h
    linarith [h.1, h.2]

theorem C13_short_window_spawns_witness :
    ((0 : ℚ) ≤ 1 / 2 ∧ (1 / 2 : ℚ) < 1 ∧ shortWindow.HEIGHT < GAP_SIZE + 100 ∧
      runningState.running = true) ∧
    ∃ u l : Pipe,
      (pipeSpawning shortWindow runningState (initialEntities shortWindow)
        [GameEvent.spawnPipe (1 / 2)]).pipes =
        (initialEntities shortWindow).pipes ++ [u, l] ∧
      u.y + u.height = 1 / 2 * (shortWindow.HEIGHT - GAP_SIZE - 100) + 50 ∧
      l.y = u.y + u.height + GAP_SIZE ∧
      shortWindow.HEIGHT - GAP_SIZE - 50 < u.y + u.height ∧ u.y + u.height ≤ 50 ∧
      ¬ (50 ≤ u.y + u.height ∧ u.y + u.height ≤ shortWindow.HEIGHT - GAP_SIZE - 50) :=
  have h0 : (0 : ℚ) ≤ 1 / 2 := by norm_num
  have h1 : (1 / 2 : ℚ) < 1 := by norm_num
  have hH : shortWindow.HEIGHT < GAP_SIZE + 100 := by norm_num [shortWindow, GAP_SIZE]
  ⟨⟨h0, h1, hH, rfl⟩,
   C13_short_window_spawns shortWindow runningState (initialEntities shortWindow) (1 / 2)
     h0 h1 hH rfl⟩

/-- C14: in a Running state, a pipe whose box after the translation only touches the
bird's box on a vertical edge (`bird.x + BIRD_WIDTH = x - PIPE_SPEED` or
`bird.x = x - PIPE_SPEED + PIPE_WIDTH`) makes the loop iteration call no setter at all,
whatever the bird's height: the setter calls of the whole `physics` step are those of the
step without that pipe. The vertical comparisons are strict too: with `pipe.y ≤ bird.y`
and `bird.y + BIRD_HEIGHT ≤ pipe.y + GAP_SIZE` (equalities included) the iteration never
calls `gameOverHandler`. -/
theorem C14_edge_contact (d : Dims) (s : State) (time : ℚ) (p : Pipe)
    (pre post : List Pipe) (hr : s.running = true)
    (hps : s.entities.pipes = pre ++ p :: post)
    (ht : s.entities.bird.x + BIRD_WIDTH = p.x - PIPE_SPEED ∨
          s.entities.bird.x = p.x - PIPE_SPEED + PIPE_WIDTH) :
    (∀ (b : Bird) (q : List Update), b.x = s.entities.bird.x → (loopBody s b p q).2 = q) ∧
    (physics d s s.entities time).2 =
      (physics d s { s.entities with pipes := pre ++ post } time).2 ∧
    (∀ (b : Bird) (p1 : Pipe), p1.y ≤ b.y → b.y + BIRD_HEIGHT ≤ p1.y + GAP_SIZE →
      ∀ u ∈ (loopBody s b p1 []).2, u = Update.incScore) := by
  refine ⟨?_, ?_, ?_⟩
  · intro b q hb
    rw [loopBody_eq, pipeUpdates_touching s b p (by rw [hb]; exact ht)]
    simp
  · rw [physics_running d s s.entities time hr, physics_running d s _ time hr, hps]
    have h0 : pipeUpdates s (fall s.entities.bird) p = [] :=
      pipeUpdates_touching s _ p (by rw [fall_x]; exact ht)
    simp [List.flatMap_append, h0]
  · intro b p1 h1 h2 u hu
    have hc : collides b p1 = false := by
      simp only [collides, decide_eq_false_iff_not, not_and, not_or, not_lt]
      intro _ _
      exact ⟨h1, h2⟩
    rw [loopBody_eq] at hu
    simp only [pipeUpdates, hc, Bool.false_eq_true, if_false, List.append_nil,
      List.nil_append] at hu
    split at hu
    · simpa using hu
    · simp at hu

theorem C14_edge_contact_witness :
    (touchState.running = true ∧
      touchState.entities.bird.x + BIRD_WIDTH = 143 - PIPE_SPEED) ∧
    (physics phone touchState touchState.entities 16).2 =
      (physics phone touchState touchRest 16).2 :=
  have ht : touchState.entities.bird.x + BIRD_WIDTH = 143 - PIPE_SPEED := by
    norm_num [touchState, hover, BIRD_WIDTH, PIPE_SPEED]
  ⟨⟨rfl, ht⟩,
   (C14_edge_contact phone touchState 16
     { x := 143, y := -500, width := 70, height := 800, scored := false } []
     touchState.entities.pipes.tail rfl rfl (Or.inl ht)).2.1⟩

end MainScreen2

namespace MainScreen

/-! ## Lemmas on the grid game -/

theorem lineMark_eq_some (b : List (Option Mark)) (line : List Nat) (m : Mark) :
    lineMark b line = some m ↔ line ≠ [] ∧ ∀ i ∈ line, cellAt b i = some m := by
  cases line with
  | nil => simp [lineMark]
  | cons i rest =>
    simp only [lineMark, List.head?_cons, ne_eq, reduceCtorEq, not_false_eq_true, true_and,
      List.mem_cons, forall_eq_or_imp]
    constructor
    · intro h
      split at h
      · rename_i hc
        simp only [Bool.and_eq_true, List.all_eq_true, beq_iff_eq] at hc
        refine ⟨h, ?_⟩
        intro j hj
        rw [← h]
        exact hc.2 j (List.mem_cons_of_mem _ hj)
      · exact absurd h (by simp)
    · rintro ⟨h1, h2⟩
      have hall : (List.all (i :: rest) fun index => cellAt b index == cellAt b i) = true := by
        simp only [List.all_eq_true, beq_iff_eq, List.mem_cons]
        rintro j (rfl | hj)
        · rfl
        · rw [h2 j hj, h1]
      simpa [h1] using hall

theorem lineMark_eq_none (b : List (Option Mark)) (line : List Nat) (hne : line ≠ []) :
    lineMark b line = none ↔ ∀ m, ¬ ∀ i ∈ line, cellAt b i = some m := by
  constructor
  · intro h m hm
    have := (lineMark_eq_some b line m).2 ⟨hne, hm⟩
    rw [h] at this
    exact absurd this (by simp)
  · intro h
    cases hl : lineMark b line with
    | none => rfl
    | some m => exact absurd ((lineMark_eq_some b line m).1 hl).2 (h m)

theorem scan_eq_some (b : List (Option Mark)) (m : Mark) :
    ∀ ls : List (List Nat), scan b ls = some m ↔
      ∃ pre line post, ls = pre ++ line :: post ∧
        (∀ l ∈ pre, lineMark b l = none) ∧ lineMark b line = some m := by
  intro ls
  induction ls with
  | nil => simp [scan]
  | cons l rest ih =>
    cases hl : lineMark b l with
    | some m1 =>
      simp only [scan, hl, Option.some.injEq]
      constructor
      · rintro rfl
        exact ⟨[], l, rest, rfl, by simp, hl⟩
      · rintro ⟨pre, line, post, heq, hpre, hline⟩
        cases pre with
        | nil =>
          simp only [List.nil_append, List.cons.injEq] at heq
          rw [← heq.1, hl] at hline
          exact Option.some.inj hline
        | cons p pre1 =>
          simp only [List.cons_append, List.cons.injEq] at heq
          have := hpre p (List.mem_cons_self _ _)
          rw [← heq.1, hl] at this
          exact absurd this (by simp)
    | none =>
      simp only [scan, hl]
      rw [ih]
      constructor
      · rintro ⟨pre, line, post, heq, hpre, hline⟩
        refine ⟨l :: pre, line, post, by rw [heq]; rfl, ?_, hline⟩
        intro l1 h1
        rcases List.mem_cons.1 h1 with rfl | h1
        · exact hl
        · exact hpre l1 h1
      · rintro ⟨pre, line, post, heq, hpre, hline⟩
        cases pre with
        | nil =>
          simp only [List.nil_append, List.cons.injEq] at heq
          rw [← heq.1, hl] at hline
          exact absurd hline (by simp)
        | cons p pre1 =>
          simp only [List.cons_append, List.cons.injEq] at heq
          exact ⟨pre1, line, post, heq.2, fun l1 h1 => hpre l1 (List.mem_cons_of_mem _ h1),
            hline⟩

theorem scan_eq_none (b : List (Option Mark)) :
    ∀ ls : List (List Nat), scan b ls = none ↔ ∀ l ∈ ls, lineMark b l = none := by
  intro ls
  induction ls with
  | nil => simp [scan]
  | cons l rest ih =>
    cases hl : lineMark b l with
    | some m1 => simp [scan, hl]
    | none => simp [scan, hl, ih]

theorem mem_lines (n : Nat) (line : List Nat) :
    line ∈ lines n ↔
      (∃ i, i < n ∧ line = (List.range n).map (fun j => i * n + j)) ∨
      (∃ i, i < n ∧ line = (List.range n).map (fun j => j * n + i)) ∨
      line = (List.range n).map (fun i => i * n + i) ∨
      line = (List.range n).map (fun i => i * n + (n - 1 - i)) := by
  simp only [lines, List.mem_append, List.mem_flatMap, List.mem_range, List.mem_cons,
    List.mem_singleton, List.not_mem_nil, or_false]
  constructor
  · rintro (⟨i, hi, h | h⟩ | h | h)
    · exact Or.inl ⟨i, hi, h⟩
    · exact Or.inr (Or.inl ⟨i, hi, h⟩)
    · exact Or.inr (Or.inr (Or.inl h))
    · exact Or.inr (Or.inr (Or.inr h))
  · rintro (⟨i, hi, h⟩ | ⟨i, hi, h⟩ | h | h)
    · exact Or.inl ⟨i, hi, Or.inl h⟩
    · exact Or.inl ⟨i, hi, Or.inr h⟩
    · exact Or.inr (Or.inl h)
    · exact Or.inr (Or.inr h)

theorem lines_length (n : Nat) : (lines n).length = 2 * n + 2 := by
  have h : ∀ l : List Nat, (l.flatMap (fun i =>
      [ (List.range n).map (fun j => i * n + j),
        (List.range n).map (fun j => j * n + i) ])).length = 2 * l.length := by
    intro l
    induction l with
    | nil => rfl
    | cons a l ih =>
      simp only [List.flatMap_cons, List.length_append, ih, List.length_cons,
        List.length_nil]
      omega
  simp only [lines, List.length_append, h, List.length_range, List.length_cons,
    List.length_nil]

theorem line_length (n : Nat) (line : List Nat) (h : line ∈ lines n) : line.length = n := by
  rcases (mem_lines n line).1 h with ⟨i, _, rfl⟩ | ⟨i, _, rfl⟩ | rfl | rfl <;> simp

theorem line_index_lt (n : Nat) (line : List Nat) (h : line ∈ lines n) :
    ∀ i ∈ line, i < n * n := by
  have key : ∀ a b : Nat, a < n → b < n → a * n + b < n * n := by
    intro a b ha hb
    calc a * n + b < a * n + n := by omega
      _ = (a + 1) * n := by ring
      _ ≤ n * n := Nat.mul_le_mul_right n ha
  intro i hi
  rcases (mem_lines n line).1 h with ⟨r, hr, rfl⟩ | ⟨c, hc, rfl⟩ | rfl | rfl <;>
    simp only [List.mem_map, List.mem_range] at hi <;>
    obtain ⟨j, hj, rfl⟩ := hi
  · exact key r j hr hj
  · exact key j c hj hc
  · exact key j j hj hj
  · exact key j (n - 1 - j) hj (by omega)

theorem line_ne_nil (n : Nat) (hn : 0 < n) (line : List Nat) (h : line ∈ lines n) :
    line ≠ [] := by
  intro h0
  have := line_length n line h
  rw [h0] at this
  simp at this
  omega

/-- Some line of the array `lines` is filled with `m` exactly when `m` has `n` in a row. -/
theorem exists_line_iff (n : Nat) (b : List (Option Mark)) (m : Mark) :
    (∃ line ∈ lines n, ∀ i ∈ line, cellAt b i = some m) ↔ InARow n b m := by
  unfold InARow
  constructor
  · rintro ⟨line, hl, hall⟩
    rcases (mem_lines n line).1 hl with ⟨r, hr, rfl⟩ | ⟨c, hc, rfl⟩ | rfl | rfl
    · exact Or.inl ⟨r, hr, fun c hc => hall _ (List.mem_map.2 ⟨c, List.mem_range.2 hc, rfl⟩)⟩
    · exact Or.inr (Or.inl ⟨c, hc,
        fun r hr => hall _ (List.mem_map.2 ⟨r, List.mem_range.2 hr, rfl⟩)⟩)
    · exact Or.inr (Or.inr (Or.inl
        (fun i hi => hall _ (List.mem_map.2 ⟨i, List.mem_range.2 hi, rfl⟩))))
    · exact Or.inr (Or.inr (Or.inr
        (fun i hi => hall _ (List.mem_map.2 ⟨i, List.mem_range.2 hi, rfl⟩))))
  · rintro (⟨r, hr, h⟩ | ⟨c, hc, h⟩ | h | h)
    · refine ⟨_, (mem_lines n _).2 (Or.inl ⟨r, hr, rfl⟩), ?_⟩
      intro i hi
      obtain ⟨j, hj, rfl⟩ := List.mem_map.1 hi
      exact h j (List.mem_range.1 hj)
    · refine ⟨_, (mem_lines n _).2 (Or.inr (Or.inl ⟨c, hc, rfl⟩)), ?_⟩
      intro i hi
      obtain ⟨j, hj, rfl⟩ := List.mem_map.1 hi
      exact h j (List.mem_range.1 hj)
    · refine ⟨_, (mem_lines n _).2 (Or.inr (Or.inr (Or.inl rfl))), ?_⟩
      intro i hi
      obtain ⟨j, hj, rfl⟩ := List.mem_map.1 hi
      exact h j (List.mem_range.1 hj)
    · refine ⟨_, (mem_lines n _).2 (Or.inr (Or.inr (Or.inr rfl))), ?_⟩
      intro i hi
      obtain ⟨j, hj, rfl⟩ := List.mem_map.1 hi
      exact h j (List.mem_range.1 hj)

/-- The scan finds mark `m` only if `m` has `n` in a row, and finds some mark as soon
as some mark has `n` in a row. -/
theorem scan_lines_some (n : Nat) (b : List (Option Mark)) (m : Mark)
    (h : scan b (lines n) = some m) : InARow n b m := by
  obtain ⟨pre, line, post, heq, _, hline⟩ := (scan_eq_some b m (lines n)).1 h
  have hmem : line ∈ lines n := by rw [heq]; simp
  exact (exists_line_iff n b m).1 ⟨line, hmem, ((lineMark_eq_some b line m).1 hline).2⟩

theorem scan_lines_none (n : Nat) (hn : 0 < n) (b : List (Option Mark)) :
    scan b (lines n) = none ↔ ∀ m, ¬ InARow n b m := by
  rw [scan_eq_none]
  constructor
  · intro h m hm
    obtain ⟨line, hl, hall⟩ := (exists_line_iff n b m).2 hm
    exact (lineMark_eq_none b line (line_ne_nil n hn line hl)).1 (h line hl) m hall
  · intro h line hl
    rw [lineMark_eq_none b line (line_ne_nil n hn line hl)]
    intro m hall
    exact h m ((exists_line_iff n b m).1 ⟨line, hl, hall⟩)

theorem checkWinner_won (c : Component) (b : List (Option Mark)) (m : Mark)
    (h : scan b (lines c.boardSize) = some m) :
    checkWinner c b =
      [Setter.setWinner (some (Outcome.won m)), Setter.addWin m,
       Setter.addHistory { winner := Outcome.won m, boardSize := c.boardSize,
                           playerX := c.playerX, playerO := c.playerO }] := by
  simp [checkWinner, h]

theorem checkWinner_draw (c : Component) (b : List (Option Mark))
    (h : scan b (lines c.boardSize) = none) (hfull : none ∉ b) :
    checkWinner c b =
      [Setter.setWinner (some Outcome.draw), Setter.addDraw,
       Setter.addHistory { winner := Outcome.draw, boardSize := c.boardSize,
                           playerX := c.playerX, playerO := c.playerO }] := by
  simp [checkWinner, h, hfull]

theorem checkWinner_open (c : Component) (b : List (Option Mark))
    (h : scan b (lines c.boardSize) = none) (hopen : none ∈ b) :
    checkWinner c b = [] := by
  simp [checkWinner, h, hopen]

theorem won_mem_checkWinner (c : Component) (b : List (Option Mark)) (m : Mark) :
    Setter.setWinner (some (Outcome.won m)) ∈ checkWinner c b ↔
      scan b (lines c.boardSize) = some m := by
  cases hs : scan b (lines c.boardSize) with
  | some m1 =>
    rw [checkWinner_won c b m1 hs]
    simp [eq_comm]
  | none =>
    by_cases hfull : none ∈ b
    · rw [checkWinner_open c b hs hfull]; simp
    · rw [checkWinner_draw c b hs hfull]; simp

theorem draw_mem_checkWinner (c : Component) (b : List (Option Mark)) :
    Setter.setWinner (some Outcome.draw) ∈ checkWinner c b ↔
      scan b (lines c.boardSize) = none ∧ none ∉ b := by
  cases hs : scan b (lines c.boardSize) with
  | some m1 =>
    rw [checkWinner_won c b m1 hs]
    simp
  | none =>
    by_cases hfull : none ∈ b
    · rw [checkWinner_open c b hs hfull]; simp [hfull]
    · rw [checkWinner_draw c b hs hfull]; simp [hfull]

theorem cellAt_set_self (b : List (Option Mark)) (i : Nat) (v : Option Mark)
    (h : i < b.length) : cellAt (b.set i v) i = v := by
  simp [cellAt, h]

theorem cellAt_set_other (b : List (Option Mark)) (i j : Nat) (v : Option Mark)
    (h : j ≠ i) : cellAt (b.set i v) j = cellAt b j := by
  simp [cellAt, List.getElem?_set_ne (Ne.symm h)]

/-- Writing a mark into an empty cell adds one to the count of that mark and leaves
the count of the other mark as it is. -/
theorem marks_set (m m1 : Mark) : ∀ (b : List (Option Mark)) (i : Nat), i < b.length →
    cellAt b i = none →
    marks (b.set i (some m)) m1 = marks b m1 + (if m = m1 then 1 else 0) := by
  intro b
  induction b with
  | nil => intro i h; simp at h
  | cons a rest ih =>
    intro i h hc
    cases i with
    | zero =>
      simp only [cellAt, List.getD_cons_zero] at hc
      subst hc
      simp only [List.set_cons_zero, marks, List.count_cons, beq_iff_eq, Option.some.injEq,
        reduceCtorEq, if_false, Nat.add_zero]
    | succ k =>
      have hk : k < rest.length := by simpa using h
      have hck : cellAt rest k = none := by simpa [cellAt] using hc
      have := ih k hk hck
      simp only [marks] at this
      simp only [List.set_cons_succ, marks, List.count_cons, this]
      omega

theorem marks_replicate (n : Nat) (m : Mark) : marks (List.replicate n none) m = 0 := by
  simp [marks, List.count_replicate]

/-- The setter calls of `checkWinner` touch neither the board nor the turn. -/
theorem applySetters_checkWinner (c : Component) (b : List (Option Mark)) (s : Component) :
    (applySetters (checkWinner c b) s).board = s.board ∧
    (applySetters (checkWinner c b) s).currentPlayer = s.currentPlayer ∧
    (applySetters (checkWinner c b) s).boardSize = s.boardSize := by
  cases hs : scan b (lines c.boardSize) with
  | some m =>
    rw [checkWinner_won c b m hs]
    cases m <;> exact ⟨rfl, rfl, rfl⟩
  | none =>
    by_cases hfull : none ∈ b
    · rw [checkWinner_open c b hs hfull]; exact ⟨rfl, rfl, rfl⟩
    · rw [checkWinner_draw c b hs hfull]; exact ⟨rfl, rfl, rfl⟩

theorem applySetters_append (q1 q2 : List Setter) (s : Component) :
    applySetters (q1 ++ q2) s = applySetters q2 (applySetters q1 s) := by
  simp [applySetters]

/-- A press on an occupied cell, or once `winner` is set, changes nothing. -/
theorem press_blocked (s : Component) (index : Nat)
    (h : cellAt s.board index ≠ none ∨ s.winner ≠ none) : press s index = s := by
  have hg : ((cellAt s.board index).isSome || s.winner.isSome) = true := by
    rcases h with h | h
    · simp [Option.isSome_iff_ne_none.2 h]
    · simp [Option.isSome_iff_ne_none.2 h]
  simp [press, handleCellPress, hg, applySetters]

/-- A press on an empty cell while `winner` is `null` writes the current player's mark
there and passes the turn. -/
theorem press_free (s : Component) (index : Nat)
    (hc : cellAt s.board index = none) (hw : s.winner = none) :
    (press s index).board = s.board.set index (some s.currentPlayer) ∧
    (press s index).currentPlayer =
      (if s.currentPlayer = Mark.X then Mark.O else Mark.X) ∧
    (press s index).boardSize = s.boardSize := by
  have hg : ((cellAt s.board index).isSome || s.winner.isSome) = false := by
    simp [hc, hw]
  simp only [press, handleCellPress, hg, Bool.false_eq_true, if_false]
  rw [applySetters_append, applySetters_append]
  have h := applySetters_checkWinner s (s.board.set index (some s.currentPlayer))
    (applySetters [Setter.setBoard (s.board.set index (some s.currentPlayer))] s)
  refine ⟨?_, ?_, ?_⟩
  · show (applySetters (checkWinner s _) _).board = _
    rw [h.1]; rfl
  · rfl
  · show (applySetters (checkWinner s _) _).boardSize = _
    rw [h.2.2]; rfl

/-- The turn invariant: the board has `size * size` cells, and either it is X's turn
and both marks are equally many, or it is O's turn and X has one mark more. -/
theorem played_turn (size : Nat) (s : Component) (h : Played size s) :
    s.board.length = size * size ∧
    ((s.currentPlayer = Mark.X ∧ marks s.board Mark.X = marks s.board Mark.O) ∨
     (s.currentPlayer = Mark.O ∧ marks s.board Mark.X = marks s.board Mark.O + 1)) := by
  induction h with
  | init s0 =>
    refine ⟨by simp [applySetters, initBoard, Setter.apply], Or.inl ⟨rfl, ?_⟩⟩
    show marks (List.replicate (size * size) none) Mark.X =
      marks (List.replicate (size * size) none) Mark.O
    rw [marks_replicate, marks_replicate]
  | @press s index _ hi ih =>
    by_cases hb : cellAt s.board index ≠ none ∨ s.winner ≠ none
    · rw [press_blocked s index hb]; exact ih
    · simp only [not_or, not_not] at hb
      obtain ⟨hboard, hcur, _⟩ := press_free s index hb.1 hb.2
      have hlt : index < s.board.length := by rw [ih.1]; exact hi
      rw [hboard, hcur, marks_set _ _ _ _ hlt hb.1, marks_set _ _ _ _ hlt hb.1]
      refine ⟨by simp [ih.1], ?_⟩
      rcases ih.2 with ⟨hx, hm⟩ | ⟨ho, hm⟩
      · right
        simp [hx, hm]
      · left
        simp [ho, hm]

/-! ## The claims on the grid game -/

/-- C15: for every board size `N > 0` (so for 3, 4 and 5) and every board,
`checkWinner` calls `setWinner(m)` for a mark `m` exactly when, in the scan order of its
array `lines` (row 0, column 0, row 1, column 1, ..., then the two diagonals), the first
line whose cells all hold one mark holds `m`. Hence a winner is declared exactly when
some mark has `N` in a row (row, column or main diagonal), the declared mark has `N` in a
row itself, and its tally goes up by one; the array holds `2 N + 2` lines of `N` cells
of the board each. -/
theorem C15_checkWinner_winner (c : Component) (b : List (Option Mark))
    (hN : 0 < c.boardSize) :
    (∀ m, Setter.setWinner (some (Outcome.won m)) ∈ checkWinner c b ↔
      ∃ pre line post, lines c.boardSize = pre ++ line :: post ∧
        (∀ l ∈ pre, ∀ m1, ¬ ∀ i ∈ l, cellAt b i = some m1) ∧
        (∀ i ∈ line, cellAt b i = some m)) ∧
    ((∃ m, Setter.setWinner (some (Outcome.won m)) ∈ checkWinner c b) ↔
      ∃ m, InARow c.boardSize b m) ∧
    (∀ m, Setter.setWinner (some (Outcome.won m)) ∈ checkWinner c b →
      InARow c.boardSize b m ∧
      checkWinner c b =
        [Setter.setWinner (some (Outcome.won m)), Setter.addWin m,
         Setter.addHistory { winner := Outcome.won m, boardSize := c.boardSize,
                             playerX := c.playerX, playerO := c.playerO }]) ∧
    (lines c.boardSize).length = 2 * c.boardSize + 2 ∧
    (∀ line ∈ lines c.boardSize,
      line.length = c.boardSize ∧ ∀ i ∈ line, i < c.boardSize * c.boardSize) := by
  refine ⟨?_, ?_, ?_, lines_length _, fun line h => ⟨line_length _ line h,
    line_index_lt _ line h⟩⟩
  · intro m
    rw [won_mem_checkWinner, scan_eq_some]
    constructor
    · rintro ⟨pre, line, post, heq, hpre, hline⟩
      refine ⟨pre, line, post, heq, ?_, ((lineMark_eq_some b line m).1 hline).2⟩
      intro l hl
      have hmem : l ∈ lines c.boardSize := by rw [heq]; simp [hl]
      exact (lineMark_eq_none b l (line_ne_nil _ hN l hmem)).1 (hpre l hl)
    · rintro ⟨pre, line, post, heq, hpre, hline⟩
      have hmem : line ∈ lines c.boardSize := by rw [heq]; simp
      refine ⟨pre, line, post, heq, ?_,
        (lineMark_eq_some b line m).2 ⟨line_ne_nil _ hN line hmem, hline⟩⟩
      intro l hl
      have hmem1 : l ∈ lines c.boardSize := by rw [heq]; simp [hl]
      exact (lineMark_eq_none b l (line_ne_nil _ hN l hmem1)).2 (hpre l hl)
  · constructor
    · rintro ⟨m, hm⟩
      exact ⟨m, scan_lines_some _ b m ((won_mem_checkWinner c b m).1 hm)⟩
    · rintro ⟨m, hm⟩
      cases hs : scan b (lines c.boardSize) with
      | some m1 => exact ⟨m1, (won_mem_checkWinner c b m1).2 hs⟩
      | none => exact absurd hm ((scan_lines_none _ hN b).1 hs m)
  · intro m hm
    have hs := (won_mem_checkWinner c b m).1 hm
    exact ⟨scan_lines_some _ b m hs, checkWinner_won c b m hs⟩

theorem C15_checkWinner_winner_witness :
    0 < freshComponent.boardSize ∧
    Setter.setWinner (some (Outcome.won Mark.X)) ∈ checkWinner freshComponent columnBoard ∧
    InARow freshComponent.boardSize columnBoard Mark.X ∧
    checkWinner freshComponent columnBoard =
      [Setter.setWinner (some (Outcome.won Mark.X)), Setter.addWin Mark.X,
       Setter.addHistory { winner := Outcome.won Mark.X,
                           boardSize := freshComponent.boardSize,
                           playerX := freshComponent.playerX,
                           playerO := freshComponent.playerO }] :=
  have hN : 0 < freshComponent.boardSize := by decide
  have hm : Setter.setWinner (some (Outcome.won Mark.X)) ∈
      checkWinner freshComponent columnBoard := by decide
  ⟨hN, hm, (C15_checkWinner_winner freshComponent columnBoard hN).2.2.1 Mark.X hm⟩

/-- C16: for every board size `N > 0` and every board, `checkWinner` calls
`setWinner(draw)` exactly when the board has no `null` cell and no mark has `N` in a
row; it then adds one to the `draws` tally and one entry to the history. On a board that
has a `null` cell and no `N` in a row it calls no setter: winner, tally and history stay
as they are. -/
theorem C16_checkWinner_draw (c : Component) (b : List (Option Mark))
    (hN : 0 < c.boardSize) :
    (Setter.setWinner (some Outcome.draw) ∈ checkWinner c b ↔
      none ∉ b ∧ ∀ m, ¬ InARow c.boardSize b m) ∧
    (none ∉ b → (∀ m, ¬ InARow c.boardSize b m) →
      (applySetters (checkWinner c b) c).winner = some Outcome.draw ∧
      (applySetters (checkWinner c b) c).score =
        { c.score with draws := c.score.draws + 1 } ∧
      (applySetters (checkWinner c b) c).gameHistory =
        c.gameHistory ++ [{ winner := Outcome.draw, boardSize := c.boardSize,
                            playerX := c.playerX, playerO := c.playerO }]) ∧
    (none ∈ b → (∀ m, ¬ InARow c.boardSize b m) →
      checkWinner c b = [] ∧ applySetters (checkWinner c b) c = c) := by
  refine ⟨?_, ?_, ?_⟩
  · rw [draw_mem_checkWinner, scan_lines_none _ hN]
    exact And.comm
  · intro hfull hno
    rw [checkWinner_draw c b ((scan_lines_none _ hN b).2 hno) hfull]
    exact ⟨rfl, rfl, rfl⟩
  · intro hopen hno
    rw [checkWinner_open c b ((scan_lines_none _ hN b).2 hno) hopen]
    exact ⟨rfl, rfl⟩

theorem C16_checkWinner_draw_witness :
    (0 < freshComponent.boardSize ∧ none ∉ drawBoard ∧
      (∀ m, ¬ InARow freshComponent.boardSize drawBoard m) ∧
      none ∈ openBoard ∧ (∀ m, ¬ InARow freshComponent.boardSize openBoard m)) ∧
    ((applySetters (checkWinner freshComponent drawBoard) freshComponent).winner =
        some Outcome.draw ∧
      (applySetters (checkWinner freshComponent drawBoard) freshComponent).score =
        { freshComponent.score with draws := freshComponent.score.draws + 1 } ∧
      (applySetters (checkWinner freshComponent drawBoard) freshComponent).gameHistory =
        freshComponent.gameHistory ++
          [{ winner := Outcome.draw, boardSize := freshComponent.boardSize,
             playerX := freshComponent.playerX, playerO := freshComponent.playerO }]) ∧
    (checkWinner freshComponent openBoard = [] ∧
      applySetters (checkWinner freshComponent openBoard) freshComponent = freshComponent) :=
  have hN : 0 < freshComponent.boardSize := by decide
  have hfull : none ∉ drawBoard := by decide
  have hno : ∀ m, ¬ InARow freshComponent.boardSize drawBoard m := by
    intro m; cases m <;> decide
  have hopen : none ∈ openBoard := by decide
  have hno2 : ∀ m, ¬ InARow freshComponent.boardSize openBoard m := by
    intro m; cases m <;> decide
  ⟨⟨hN, hfull, hno, hopen, hno2⟩,
   (C16_checkWinner_draw freshComponent drawBoard hN).2.1 hfull hno,
   (C16_checkWinner_draw freshComponent openBoard hN).2.2 hopen hno2⟩

/-- C17: in every state reached from `initBoard size` by presses of cells of the board,
the number of X marks equals the number of O marks or exceeds it by one, and it is X's
turn exactly when they are equal. A press on an occupied cell, or any press once
`winner` is set (a mark or `draw`), leaves the whole state unchanged; every other press
writes the current player's mark into the pressed cell, leaves the other cells as they
are, and passes the turn to the other player. -/
theorem C17_alternating_marks (size : Nat) (s : Component) (h : Played size s) :
    (marks s.board Mark.X = marks s.board Mark.O ∨
      marks s.board Mark.X = marks s.board Mark.O + 1) ∧
    (s.currentPlayer = Mark.X ↔ marks s.board Mark.X = marks s.board Mark.O) ∧
    (∀ index, index < size * size →
      ((cellAt s.board index ≠ none ∨ s.winner ≠ none) → press s index = s) ∧
      (cellAt s.board index = none → s.winner = none →
        (press s index).board = s.board.set index (some s.currentPlayer) ∧
        cellAt (press s index).board index = some s.currentPlayer ∧
        (∀ j, j ≠ index → cellAt (press s index).board j = cellAt s.board j) ∧
        (press s index).currentPlayer ≠ s.currentPlayer ∧
        marks (press s index).board s.currentPlayer =
          marks s.board s.currentPlayer + 1)) := by
  obtain ⟨hlen, hturn⟩ := played_turn size s h
  refine ⟨?_, ?_, ?_⟩
  · rcases hturn with ⟨_, hm⟩ | ⟨_, hm⟩
    · exact Or.inl hm
    · exact Or.inr hm
  · rcases hturn with ⟨hx, hm⟩ | ⟨ho, hm⟩
    · exact ⟨fun _ => hm, fun _ => hx⟩
    · constructor
      · intro hx; rw [ho] at hx; exact absurd hx (by decide)
      · intro he; omega
  · intro index hi
    refine ⟨press_blocked s index, ?_⟩
    intro hc hw
    obtain ⟨hboard, hcur, _⟩ := press_free s index hc hw
    have hlt : index < s.board.length := by rw [hlen]; exact hi
    refine ⟨hboard, ?_, ?_, ?_, ?_⟩
    · rw [hboard]; exact cellAt_set_self _ _ _ hlt
    · intro j hj
      rw [hboard]; exact cellAt_set_other _ _ _ _ hj
    · rw [hcur]
      cases s.currentPlayer <;> decide
    · rw [hboard, marks_set _ _ _ _ hlt hc]
      simp

theorem C17_alternating_marks_witness :
    Played 3 twoMoves ∧
    (marks twoMoves.board Mark.X = marks twoMoves.board Mark.O ∨
      marks twoMoves.board Mark.X = marks twoMoves.board Mark.O + 1) ∧
    press twoMoves 4 = twoMoves :=
  have hp : Played 3 twoMoves :=
    Played.press 0 (Played.press 4 (Played.init freshComponent) (by decide)) (by decide)
  ⟨hp, (C17_alternating_marks 3 twoMoves hp).1,
   ((C17_alternating_marks 3 twoMoves hp).2.2 4 (by decide)).1 (Or.inl (by decide))⟩

end MainScreen
